import Mathlib

/-!
Verification of the LaTeX validation / auto-repair subsystem of the
AI-Scientist repository (`ai_scientist/utils/latex_helper/`).

The development shallow-embeds the two Python modules the claims are about:

* `latex_template_validator.py` — `LaTeXTemplateValidator` and its seven
  structure checks, embedded as pure functions on `Buf := List Char`;
* `latex_package_manager.py` — `LaTeXPackageManager`: the missing-package
  log extractor, the per-session package installer cache, the
  compile-with-auto-install retry loop (subprocess results are supplied by
  an environment value per attempt), the BibTeX syntax fixer and the
  citation part of `validate_latex_file`.

Python strings are modelled as `List Char`; `re` searches and
substitutions are implemented as explicit scanners with the exact
semantics of the concrete patterns used by the source (leftmost match,
greedy repetition with the backtracking each pattern actually allows,
non-overlapping `findall`/`sub` scans that resume after each match).
All recursion is structural (fuelled where a scan skips ahead), so every
definition evaluates inside the kernel.
-/

namespace AISci

/-- A Python string, as the list of its characters. -/
abbrev Buf := List Char

/-- Convert a Lean string literal to a `Buf`. -/
def lit (s : String) : Buf := s.toList

/-- Python `\s` / `str.strip` whitespace (ASCII part, as produced by the code). -/
def isPySpace (c : Char) : Bool :=
  c = ' ' || c = '\t' || c = '\n' || c = '\r' || c = '\x0b' || c = '\x0c'

/-- Python `str.strip()`. -/
def pyStrip (l : Buf) : Buf :=
  ((l.dropWhile isPySpace).reverse.dropWhile isPySpace).reverse

/-- Does `m` occur in `l` starting at index `i`?  (`l[i:i+len(m)] == m`). -/
def occursAtB (m l : Buf) (i : Nat) : Bool := (l.drop i).take m.length == m

/-- Number of indices at which `m` occurs in `l`. -/
def countOcc (m l : Buf) : Nat :=
  (List.range (l.length + 1)).countP (occursAtB m l)

/-- Python `m in l` (substring test), the Boolean form of `re.search` for a
literal pattern. -/
def containsSub (m l : Buf) : Bool := countOcc m l != 0

/-- Leftmost index at which the literal `m` occurs in `l`
(`re.search(re.escape(m), l).start()`). -/
def findSub (m l : Buf) : Option Nat :=
  (List.range (l.length + 1)).find? (occursAtB m l)

/-- Strip the literal `pre` from the front of `l`, if present. -/
def dropLit (pre l : Buf) : Option Buf :=
  if pre.isPrefixOf l then some (l.drop pre.length) else none

/-- The `[^}]*` part of a regex group: everything before the first `}`limiter. -/
def takeUntilBrace (l : Buf) : Buf := l.takeWhile (fun c => c != '\x7d')

/-- Skip past the first closing brace (`[^}]*\}`), returning the rest. -/
def dropPastCloseBrace : Buf → Option Buf
  | [] => none
  | '\x7d' :: r => some r
  | _ :: r => dropPastCloseBrace r

/-- Leftmost match of an anchored matcher `ml` over all start positions of
`l` (the semantics of `re.search`): returns the start position and payload. -/
def firstMatchFrom {α : Type} (ml : Buf → Option α) : Nat → Buf → Option (Nat × α)
  | pos, [] => (ml []).map (fun a => (pos, a))
  | pos, c :: r =>
    match ml (c :: r) with
    | some a => some (pos, a)
    | none => firstMatchFrom ml (pos + 1) r

/-- Leftmost match of an anchored matcher, from position 0. -/
def firstMatch {α : Type} (ml : Buf → Option α) (l : Buf) : Option (Nat × α) :=
  firstMatchFrom ml 0 l

/-- `re.findall` driver: scan left to right; on a match consume its length
and resume after it, otherwise advance one character.  `ml` returns
(consumed length, captured payload). -/
def scanAllFuel {α : Type} (ml : Buf → Option (Nat × α)) : Nat → Buf → List α
  | 0, _ => []
  | _ + 1, [] => (match ml [] with | some (_, a) => [a] | none => [])
  | fuel + 1, c :: r =>
    match ml (c :: r) with
    | some (n, a) => a :: scanAllFuel ml fuel ((c :: r).drop (max n 1))
    | none => scanAllFuel ml fuel r

/-- `re.findall`, returning the captured payloads. -/
def scanAll {α : Type} (ml : Buf → Option (Nat × α)) (l : Buf) : List α :=
  scanAllFuel ml (l.length + 1) l

/-- `re.finditer` driver that also records (start, end) spans. -/
def scanAllPosFuel {α : Type} (ml : Buf → Option (Nat × α)) :
    Nat → Nat → Buf → List (Nat × Nat × α)
  | 0, _, _ => []
  | _ + 1, pos, [] => (match ml [] with | some (n, a) => [(pos, pos + n, a)] | none => [])
  | fuel + 1, pos, c :: r =>
    match ml (c :: r) with
    | some (n, a) =>
      (pos, pos + n, a) :: scanAllPosFuel ml fuel (pos + max n 1) ((c :: r).drop (max n 1))
    | none => scanAllPosFuel ml fuel (pos + 1) r

/-- `re.finditer`, with spans. -/
def scanAllPos {α : Type} (ml : Buf → Option (Nat × α)) (l : Buf) : List (Nat × Nat × α) :=
  scanAllPosFuel ml (l.length + 1) 0 l

/-- Python `str.replace(pat, rep)`: replace all non-overlapping occurrences,
left to right. -/
def replaceAllFuel (pat rep : Buf) : Nat → Buf → Buf
  | 0, l => l
  | _ + 1, [] => []
  | fuel + 1, c :: r =>
    if pat.isPrefixOf (c :: r) then rep ++ replaceAllFuel pat rep fuel ((c :: r).drop pat.length)
    else c :: replaceAllFuel pat rep fuel r

/-- Python `str.replace(pat, rep)` (for the nonempty patterns the code uses). -/
def replaceAll (pat rep l : Buf) : Buf := replaceAllFuel pat rep l.length l

/-- Python `'\n'.join`. -/
def joinNl : List Buf → Buf
  | [] => []
  | [x] => x
  | x :: y :: t => x ++ '\n' :: joinNl (y :: t)

/-- Python `str.split(',')`. -/
def splitOnComma : Buf → List Buf
  | [] => [[]]
  | ',' :: rest => [] :: splitOnComma rest
  | c :: rest =>
    match splitOnComma rest with
    | [] => [[c]]
    | h :: t => (c :: h) :: t

/-- Matcher for a fixed literal (used for the simple `finditer` patterns). -/
def litMatcher (pre : Buf) : Buf → Option (Nat × Unit) := fun l =>
  if pre.isPrefixOf l then some (pre.length, ()) else none

/-- Matcher for `PRE([^}]+)\}` — a command with a nonempty brace group,
e.g. `\cite{...}`, `\ref{...}`, `\label{...}`, `\caption{...}`.
Returns (total match length, group). -/
def braceGroupMatcher (pre : Buf) : Buf → Option (Nat × Buf) := fun l =>
  match dropLit pre l with
  | none => none
  | some r =>
    let g := takeUntilBrace r
    if !g.isEmpty && decide (g.length < r.length) then some (pre.length + g.length + 1, g)
    else none

/-! ## Embedding of `latex_template_validator.py` (`LaTeXTemplateValidator`)

Issue records: the Python validator appends human-readable strings to
`self.issues_found`; we embed them as a tagged inductive carrying the same
dynamic data.  `fixes_applied` is print-side bookkeeping with no effect on
control flow or on the returned buffer, and is not modelled. -/

inductive VIssue : Type
  | missingBeginDocument : VIssue
  | missingEndDocument : VIssue
  | preambleCommandInBody (line : Buf) : VIssue
  | titleAuthorInBody : VIssue
  | maketitleInPreamble : VIssue
  | abstractInPreamble : VIssue
  | bibIncludesExtension (name : Buf) : VIssue
  | missingBibliographyStyle : VIssue
  | undefinedReference (name : Buf) : VIssue
  | figureMissingLabel (idx : Nat) : VIssue
  | noSectionsFound : VIssue
  | sectionHierarchySkip (ty title : Buf) (prevLevel : Nat) : VIssue
  | sectionMissingLabel (title : Buf) : VIssue
  deriving DecidableEq, Repr

/-- `\begin{document}` -/
def beginDocM : Buf := lit "\\begin\x7bdocument\x7d"

/-- `\end{document}` -/
def endDocM : Buf := lit "\\end\x7bdocument\x7d"

/-- The text inserted for a missing `\begin{document}`. -/
def beginDocIns : Buf := lit "\\begin\x7bdocument\x7d\n\n"

/-- The text appended for a missing `\end{document}`. -/
def endDocApp : Buf := lit "\n\\end\x7bdocument\x7d\n"

/-- Anchored matcher for `\title\{[^}]*\}\s*\author\{[^}]*\}` (the second
insertion pattern of `_check_document_structure`). -/
def titleAuthorAt (l : Buf) : Bool :=
  (do
    let r1 ← dropLit (lit "\\title\x7b") l
    let r2 ← dropPastCloseBrace r1
    let r3 := r2.dropWhile isPySpace
    let r4 ← dropLit (lit "\\author\x7b") r3
    let _ ← dropPastCloseBrace r4
    pure ()).isSome

/-- Leftmost start of the combined title+author declaration pattern. -/
def findTitleAuthor (c : Buf) : Option Nat :=
  (firstMatch (fun l => if titleAuthorAt l then some () else none) c).map (fun p => p.1)

/-- `_check_document_structure`, insertion-point search: the four anchor
patterns tried in preference order (`\maketitle`; `\title{..}\s*\author{..}`;
`\begin{abstract}`; `\section{`), leftmost match of the first that matches. -/
def findInsertPos (c : Buf) : Option Nat :=
  match findSub (lit "\\maketitle") c with
  | some p => some p
  | none =>
    match findTitleAuthor c with
    | some p => some p
    | none =>
      match findSub (lit "\\begin\x7babstract\x7d") c with
      | some p => some p
      | none => findSub (lit "\\section\x7b") c

/-- `LaTeXTemplateValidator._check_document_structure` (lines 76–107). -/
def check_document_structure (content : Buf) (autoFix : Bool) : List VIssue × Buf :=
  let step1 : List VIssue × Buf :=
    if containsSub beginDocM content then ([], content)
    else if autoFix then
      match findInsertPos content with
      | some p =>
        ([VIssue.missingBeginDocument], content.take p ++ beginDocIns ++ content.drop p)
      | none => ([VIssue.missingBeginDocument], content)
    else ([VIssue.missingBeginDocument], content)
  if containsSub endDocM step1.2 then step1
  else
    (step1.1 ++ [VIssue.missingEndDocument],
     if autoFix then step1.2 ++ endDocApp else step1.2)

/-- Matcher for `\input\{[^}]*\.sty\}`. -/
def inputStyMatcher : Buf → Option (Nat × Unit) := fun l =>
  match dropLit (lit "\\input\x7b") l with
  | none => none
  | some r =>
    let g := takeUntilBrace r
    if decide (g.length < r.length) && (lit ".sty").isSuffixOf g then
      some (7 + g.length + 1, ())
    else none

/-- Matcher for `\input\{[^}]*commands[^}]*\}`. -/
def inputCommandsMatcher : Buf → Option (Nat × Unit) := fun l =>
  match dropLit (lit "\\input\x7b") l with
  | none => none
  | some r =>
    let g := takeUntilBrace r
    if decide (g.length < r.length) && containsSub (lit "commands") g then
      some (7 + g.length + 1, ())
    else none

/-- The six `preamble_commands` patterns of `_check_preamble_content`, in
source order. -/
def preamblePatterns : List (Buf → Option (Nat × Unit)) :=
  [litMatcher (lit "\\documentclass"), litMatcher (lit "\\usepackage"),
   litMatcher (lit "\\newcommand"), litMatcher (lit "\\renewcommand"),
   inputStyMatcher, inputCommandsMatcher]

/-- `document_body.rfind('\n', 0, pos) + 1`: start of the line containing
position `pos`. -/
def lineStartBefore (l : Buf) (pos : Nat) : Nat :=
  (List.range pos).foldl (fun acc i => if l.get? i == some '\n' then i + 1 else acc) 0

/-- `document_body.find('\n', pos)`, with `-1` mapped to `len` as the code
does: end (exclusive, newline not included) of the line from `pos` on. -/
def lineEndFrom (l : Buf) (pos : Nat) : Nat :=
  match (l.drop pos).findIdx? (fun c => c == '\n') with
  | some j => pos + j
  | none => l.length

/-- The `fixes_needed` list of `_check_preamble_content`: for each pattern in
order, for each match in scan order, the (line_start, line_end, line text)
of the line holding the match. -/
def collectPreambleFixes (body : Buf) : List (Nat × Nat × Buf) :=
  preamblePatterns.foldl
    (fun acc ml =>
      acc ++ (scanAllPos ml body).map (fun f =>
        let ls := lineStartBefore body f.1
        let le := lineEndFrom body f.2.1
        (ls, le, (body.drop ls).take (le - ls))))
    []

/-- One step of the stable descending sort on `line_start`
(`fixes_needed.sort(key=..., reverse=True)`; Python sort is stable). -/
def insFixDesc (x : Nat × Nat × Buf) : List (Nat × Nat × Buf) → List (Nat × Nat × Buf)
  | [] => [x]
  | y :: ys => if x.1 ≤ y.1 then y :: insFixDesc x ys else x :: y :: ys

/-- Stable sort by descending `line_start` (insert the elements left to
right; an element never jumps over one with an equal or larger key). -/
def sortFixesDesc (l : List (Nat × Nat × Buf)) : List (Nat × Nat × Buf) :=
  l.foldl (fun acc x => insFixDesc x acc) []

/-- Sequential removal of the (already sorted) fixed lines from the body:
`document_body = document_body[:ls] + document_body[le:]` per entry. -/
def removeFixes : Buf → List (Nat × Nat × Buf) → Buf
  | body, [] => body
  | body, (ls, le, _) :: rest => removeFixes (body.take ls ++ body.drop le) rest

/-- `LaTeXTemplateValidator._check_preamble_content` (lines 109–163). -/
def check_preamble_content (content : Buf) (autoFix : Bool) : List VIssue × Buf :=
  match findSub beginDocM content with
  | none => ([], content)
  | some p =>
    let preamble := content.take p
    let body := content.drop p
    let fixes := collectPreambleFixes body
    let issues := fixes.map (fun f => VIssue.preambleCommandInBody (pyStrip f.2.2))
    if autoFix && !fixes.isEmpty then
      let sorted := sortFixesDesc fixes
      let body2 := removeFixes body sorted
      let preamble2 := preamble ++ '\n' :: joinNl (sorted.map (fun f => f.2.2)) ++ ['\n']
      (issues, preamble2 ++ body2)
    else (issues, content)

/-- First full match of `\title\{[^}]*\}` in `body` (the matched text). -/
def titleCmdMatch (body : Buf) : Option Buf :=
  (firstMatch
    (fun l => (dropLit (lit "\\title\x7b") l).bind (fun r =>
      let g := takeUntilBrace r
      if decide (g.length < r.length) then some (lit "\\title\x7b" ++ g ++ ['\x7d']) else none))
    body).map (fun p => p.2)

/-- First full match of `\author\{[^}]*\}` in `body` (the matched text). -/
def authorCmdMatch (body : Buf) : Option Buf :=
  (firstMatch
    (fun l => (dropLit (lit "\\author\x7b") l).bind (fun r =>
      let g := takeUntilBrace r
      if decide (g.length < r.length) then some (lit "\\author\x7b" ++ g ++ ['\x7d']) else none))
    body).map (fun p => p.2)

/-- `re.sub(r'\\maketitle\s*', '', preamble)`. -/
def removeMaketitleWsFuel : Nat → Buf → Buf
  | 0, l => l
  | _ + 1, [] => []
  | fuel + 1, c :: r =>
    if (lit "\\maketitle").isPrefixOf (c :: r) then
      removeMaketitleWsFuel fuel (((c :: r).drop 10).dropWhile isPySpace)
    else c :: removeMaketitleWsFuel fuel r

/-- `re.sub(r'\\maketitle\s*', '', preamble)`. -/
def removeMaketitleWs (l : Buf) : Buf := removeMaketitleWsFuel l.length l

/-- `LaTeXTemplateValidator._check_title_author_placement` (lines 165–220). -/
def check_title_author_placement (content : Buf) (autoFix : Bool) : List VIssue × Buf :=
  match findSub beginDocM content with
  | none => ([], content)
  | some p =>
    let preamble := content.take p
    let body := content.drop p
    let step1 : List VIssue × Buf × Buf :=
      if containsSub (lit "\\title\x7b") body || containsSub (lit "\\author\x7b") body then
        if autoFix then
          let tc := titleCmdMatch body
          let ac := authorCmdMatch body
          let body1 := match tc with | some t => replaceAll t [] body | none => body
          let body2 := match ac with | some a => replaceAll a [] body1 | none => body1
          let pre1 :=
            if tc.isSome || ac.isSome then
              preamble ++ '\n' :: tc.getD [] ++ '\n' :: ac.getD [] ++ ['\n']
            else preamble
          ([VIssue.titleAuthorInBody], pre1, body2)
        else ([VIssue.titleAuthorInBody], preamble, body)
      else ([], preamble, body)
    let pre1 := step1.2.1
    let body1 := step1.2.2
    if containsSub (lit "\\maketitle") pre1 then
      if autoFix then
        let pre2 := removeMaketitleWs pre1
        let body2 :=
          match findSub beginDocM body1 with
          | some q =>
            let e := q + beginDocM.length
            body1.take e ++ lit "\n\n\\maketitle\n" ++ body1.drop e
          | none => body1
        (step1.1 ++ [VIssue.maketitleInPreamble], pre2 ++ body2)
      else (step1.1 ++ [VIssue.maketitleInPreamble], pre1 ++ body1)
    else (step1.1, pre1 ++ body1)

/-- First match of `\begin\{abstract\}.*?\end\{abstract\}` (DOTALL) in `l`. -/
def abstractBlock (l : Buf) : Option Buf :=
  match findSub (lit "\\begin\x7babstract\x7d") l with
  | none => none
  | some a =>
    match findSub (lit "\\end\x7babstract\x7d") (l.drop (a + 16)) with
    | none => none
    | some b => some ((l.drop a).take (16 + b + 14))

/-- `LaTeXTemplateValidator._check_abstract_placement` (lines 222–264).
Note the faithful quirk: the Python code removes the abstract from a local
`preamble` variable that is never used again, and rebuilds the result from
the original `content`, so the abstract is duplicated into the body, not
moved. -/
def check_abstract_placement (content : Buf) (autoFix : Bool) : List VIssue × Buf :=
  match findSub beginDocM content with
  | none => ([], content)
  | some p =>
    let preamble := content.take p
    if containsSub (lit "\\begin\x7babstract\x7d") preamble then
      if autoFix then
        match abstractBlock preamble with
        | some ab =>
          let body := content.drop p
          let ip :=
            match findSub (lit "\\maketitle") body with
            | some q => p + q + 10
            | none => p + beginDocM.length
          ([VIssue.abstractInPreamble],
           content.take ip ++ '\n' :: '\n' :: ab ++ ['\n'] ++ content.drop ip)
        | none => ([VIssue.abstractInPreamble], content)
      else ([VIssue.abstractInPreamble], content)
    else ([], content)

/-- First match of `\bibliography\{([^}]+)\}`: (start position, group). -/
def bibCmdMatch (content : Buf) : Option (Nat × Buf) :=
  (firstMatch
    (fun l => (dropLit (lit "\\bibliography\x7b") l).bind (fun r =>
      let g := takeUntilBrace r
      if !g.isEmpty && decide (g.length < r.length) then some g else none))
    content)

/-- `LaTeXTemplateValidator._check_bibliography_setup` (lines 266–297). -/
def check_bibliography_setup (content : Buf) (autoFix : Bool) : List VIssue × Buf :=
  let bibCmd := bibCmdMatch content
  let step1 : List VIssue × Buf :=
    match bibCmd with
    | some (_, g) =>
      if (lit ".bib").isSuffixOf g then
        if autoFix then
          ([VIssue.bibIncludesExtension g],
           replaceAll (lit "\\bibliography\x7b" ++ g ++ ['\x7d'])
             (lit "\\bibliography\x7b" ++ g.take (g.length - 4) ++ ['\x7d']) content)
        else ([VIssue.bibIncludesExtension g], content)
      else ([], content)
    | none => ([], content)
  if containsSub (lit "\\bibliographystyle\x7b") step1.2 then step1
  else
    let i2 := step1.1 ++ [VIssue.missingBibliographyStyle]
    if autoFix then
      match bibCmd with
      | some (s, _) =>
        (i2, step1.2.take s ++ lit "\\bibliographystyle\x7biclr2025\x7d\n" ++ step1.2.drop s)
      | none =>
        (i2, step1.2 ++ lit "\n\\bibliographystyle\x7biclr2025\x7d\n\\bibliography\x7breferences\x7d\n")
    else (i2, step1.2)

/-- `[^a-zA-Z0-9_]` complement (the characters kept by the label slugs). -/
def isWordChar (c : Char) : Bool :=
  ('a' ≤ c && c ≤ 'z') || ('A' ≤ c && c ≤ 'Z') || ('0' ≤ c && c ≤ '9') || c = '_'

/-- `re.sub(r'[^a-zA-Z0-9_]', '_', s.lower())[:20]` (figure labels). -/
def slug20 (s : Buf) : Buf :=
  ((s.map Char.toLower).map (fun c => if isWordChar c then c else '_')).take 20

/-- `re.sub(r'[^a-zA-Z0-9_]', '_', s.lower())` (section labels, untruncated). -/
def slugFull (s : Buf) : Buf :=
  (s.map Char.toLower).map (fun c => if isWordChar c then c else '_')

/-- Matcher for one `\begin\{figure\}.*?\end\{figure\}` (DOTALL, non-greedy)
block. -/
def figureBlockMatcher : Buf → Option (Nat × Buf) := fun l =>
  match dropLit (lit "\\begin\x7bfigure\x7d") l with
  | none => none
  | some r =>
    match findSub (lit "\\end\x7bfigure\x7d") r with
    | some b => some (14 + b + 12, l.take (14 + b + 12))
    | none => none

/-- The label-insertion rewrite of one unlabelled figure block
(`_check_figure_references`, auto-fix branch; `i` is the 0-based index). -/
def fixFigureBlock (i : Nat) (blk : Buf) : Buf :=
  match firstMatch (braceGroupMatcher (lit "\\caption\x7b")) blk with
  | some (cp, g) =>
    let label := lit "fig:" ++ slug20 g.2
    let ip := cp + g.1
    blk.take ip ++ '\n' :: lit "\\label\x7b" ++ label ++ ['\x7d'] ++ blk.drop ip
  | none =>
    let label := lit "fig:figure_" ++ lit (toString (i + 1))
    replaceAll (lit "\\end\x7bfigure\x7d")
      (lit "\\label\x7b" ++ label ++ lit "\x7d\n\\end\x7bfigure\x7d") blk

/-- The per-figure loop of `_check_figure_references`: blocks were collected
once up front; the buffer is rewritten as the loop proceeds. -/
def figLoop (autoFix : Bool) : List Buf → Nat → Buf → List VIssue × Buf
  | [], _, content => ([], content)
  | blk :: rest, i, content =>
    if containsSub (lit "\\label\x7b") blk then figLoop autoFix rest (i + 1) content
    else if autoFix then
      let r := figLoop autoFix rest (i + 1) (replaceAll blk (fixFigureBlock i blk) content)
      (VIssue.figureMissingLabel (i + 1) :: r.1, r.2)
    else
      let r := figLoop autoFix rest (i + 1) content
      (VIssue.figureMissingLabel (i + 1) :: r.1, r.2)

/-- `LaTeXTemplateValidator._check_figure_references` (lines 299–344).
The undefined-reference issues are iterated over a Python `set` whose order
is unspecified; the embedding uses first-occurrence order. -/
def check_figure_references (content : Buf) (autoFix : Bool) : List VIssue × Buf :=
  let refs := scanAll (braceGroupMatcher (lit "\\ref\x7b")) content
  let labels := scanAll (braceGroupMatcher (lit "\\label\x7b")) content
  let undef := refs.dedup.filter (fun r => !labels.contains r)
  let blocks := scanAll figureBlockMatcher content
  let r := figLoop autoFix blocks 0 content
  (undef.map VIssue.undefinedReference ++ r.1, r.2)

/-- Greedy `(?:sub)*`: strip leading `sub` repetitions. -/
def countSubs : Buf → Nat × Buf
  | 's' :: 'u' :: 'b' :: r => let p := countSubs r; (p.1 + 1, p.2)
  | l => (0, l)

/-- Matcher for `\\((?:sub)*section)\{([^}]+)\}`; payload = (section type
text, title). -/
def sectionMatcher : Buf → Option (Nat × (Buf × Buf)) := fun l =>
  match l with
  | '\\' :: r =>
    let p := countSubs r
    match dropLit (lit "section\x7b") p.2 with
    | none => none
    | some r2 =>
      let g := takeUntilBrace r2
      if !g.isEmpty && decide (g.length < r2.length) then
        some (1 + 3 * p.1 + 8 + g.length + 1,
              ((List.replicate p.1 (lit "sub")).flatten ++ lit "section", g))
      else none
  | _ => none

/-- `section_levels.get(ty, 1)`. -/
def secLevel (ty : Buf) : Nat :=
  if ty == lit "section" then 1
  else if ty == lit "subsection" then 2
  else if ty == lit "subsubsection" then 3
  else 1

/-- The hierarchy-skip pass of `_check_section_structure`. -/
def hierIssues : Nat → List (Buf × Buf) → List VIssue
  | _, [] => []
  | prev, (ty, title) :: rest =>
    let cur := secLevel ty
    let tail := hierIssues cur rest
    if prev + 1 < cur then VIssue.sectionHierarchySkip ty title prev :: tail else tail

/-- The per-section label pass of `_check_section_structure`; the buffer is
rewritten as the loop proceeds. -/
def secLoop (autoFix : Bool) : List (Buf × Buf) → Buf → List VIssue × Buf
  | [], content => ([], content)
  | (ty, title) :: rest, content =>
    let pat := '\\' :: ty ++ '\x7b' :: title ++ ['\x7d']
    match findSub pat content with
    | none => secLoop autoFix rest content
    | some m =>
      let e := m + pat.length
      if containsSub (lit "\\label\x7b") ((content.drop e).take 200) then
        secLoop autoFix rest content
      else if autoFix then
        let content1 :=
          content.take e ++ '\n' :: lit "\\label\x7bsec:" ++ slugFull title ++ ['\x7d']
            ++ content.drop e
        let r := secLoop autoFix rest content1
        (VIssue.sectionMissingLabel title :: r.1, r.2)
      else
        let r := secLoop autoFix rest content
        (VIssue.sectionMissingLabel title :: r.1, r.2)

/-- `LaTeXTemplateValidator._check_section_structure` (lines 346–391). -/
def check_section_structure (content : Buf) (autoFix : Bool) : List VIssue × Buf :=
  let sections := scanAll sectionMatcher content
  if sections.isEmpty then ([VIssue.noSectionsFound], content)
  else
    let r := secLoop autoFix sections content
    (hierIssues 0 sections ++ r.1, r.2)

/-- Result record of `validate_and_fix_template` (the `success`/`error`
fields concern file I/O, which the pure embedding factors out: the buffer
is the already-read file content). -/
structure VResult where
  issues : List VIssue
  content : Buf
  needsFixing : Bool
  backupCreated : Bool
  deriving DecidableEq, Repr

/-- `LaTeXTemplateValidator.validate_and_fix_template` (lines 19–74): the
seven checks in source order, each consuming the previous buffer;
`backup_created` iff auto-fix is on and the buffer changed. -/
def validate_and_fix_template (c : Buf) (autoFix : Bool) : VResult :=
  let r1 := check_document_structure c autoFix
  let r2 := check_preamble_content r1.2 autoFix
  let r3 := check_title_author_placement r2.2 autoFix
  let r4 := check_abstract_placement r3.2 autoFix
  let r5 := check_bibliography_setup r4.2 autoFix
  let r6 := check_figure_references r5.2 autoFix
  let r7 := check_section_structure r6.2 autoFix
  let issues := r1.1 ++ r2.1 ++ r3.1 ++ r4.1 ++ r5.1 ++ r6.1 ++ r7.1
  { issues := issues
    content := r7.2
    needsFixing := !issues.isEmpty
    backupCreated := autoFix && r7.2 != c }

/-! ## Embedding of `latex_package_manager.py` (`LaTeXPackageManager`) -/

/-- Case-insensitive character comparison (for `re.IGNORECASE` literals). -/
def lowEq (a b : Char) : Bool := a.toLower == b.toLower

/-- Strip a literal prefix case-insensitively. -/
def dropLitCI : Buf → Buf → Option Buf
  | [], l => some l
  | _ :: _, [] => none
  | p :: ps, c :: cs => if lowEq p c then dropLitCI ps cs else none

/-- The `[^'\x60]` character class of the file-not-found patterns. -/
def notQuote (c : Char) : Bool := c != '\x27' && c != '\x60'

/-- Anchored matcher for `PRE([^'\x60]+)\.EXT' POST` with `re.IGNORECASE`
(patterns 1–3 of `extract_missing_packages_from_log`): the group runs to the
quote delimiter and must end in the 4-character extension, which is stripped. -/
def fileNotFoundMatcher (pre ext post : Buf) : Buf → Option (Nat × Buf) := fun l =>
  match dropLitCI pre l with
  | none => none
  | some r =>
    let w := r.takeWhile notQuote
    if ext.isSuffixOf (w.map Char.toLower) && decide (4 < w.length) then
      match r.drop w.length with
      | '\x27' :: rest =>
        match dropLitCI post rest with
        | some _ => some (pre.length + w.length + 1 + post.length, w.take (w.length - 4))
        | none => none
      | _ => none
    else none

/-- Anchored matcher for pattern 4, ``File \x60([^'\x60]+)' not found``
(`re.IGNORECASE`), group unrestricted. -/
def fileTickMatcher : Buf → Option (Nat × Buf) := fun l =>
  match dropLitCI (lit "file \x60") l with
  | none => none
  | some r =>
    let w := r.takeWhile notQuote
    if w.isEmpty then none
    else
      match r.drop w.length with
      | '\x27' :: rest =>
        match dropLitCI (lit " not found") rest with
        | some _ => some (6 + w.length + 1 + 10, w)
        | none => none
      | _ => none

/-- Anchored matcher for pattern 5,
`l\.\d+\s+\\usepackage\s*\{([^}]+)\}` (`re.IGNORECASE`). -/
def emergencyMatcher : Buf → Option (Nat × Buf) := fun l =>
  match l with
  | c :: '.' :: r =>
    if lowEq c 'l' then
      let ds := r.takeWhile (fun d => d.isDigit)
      if ds.isEmpty then none
      else
        let r2 := r.drop ds.length
        let ws := r2.takeWhile isPySpace
        if ws.isEmpty then none
        else
          match dropLitCI (lit "\\usepackage") (r2.drop ws.length) with
          | none => none
          | some r4 =>
            let ws2 := r4.takeWhile isPySpace
            match r4.drop ws2.length with
            | '\x7b' :: r5 =>
              let g := takeUntilBrace r5
              if !g.isEmpty && decide (g.length < r5.length) then
                some (2 + ds.length + ws.length + 11 + ws2.length + 1 + g.length + 1, g)
              else none
            | _ => none
    else none
  | _ => none

/-- `LaTeXPackageManager.extract_missing_packages_from_log` (lines 199–235):
the five patterns in source order, concatenated and deduplicated.  Python
deduplicates with `list(set(...))`, whose order is unspecified; the
embedding keeps first occurrences (`List.dedup`), which agrees on
membership and duplicate-freeness. -/
def extract_missing_packages_from_log (log : Buf) : List Buf :=
  let m1 := scanAll (fileNotFoundMatcher (lit "! latex error: file \x60") (lit ".sty")
    (lit " not found")) log
  let m2 := scanAll (fileNotFoundMatcher (lit "! i can\x27t find file \x60") (lit ".sty") []) log
  let m3 := scanAll (fileNotFoundMatcher (lit "! latex error: file \x60") (lit ".cls")
    (lit " not found")) log
  let m4 := ((scanAll fileTickMatcher log).filter
      (fun m => (lit ".sty").isSuffixOf m || (lit ".cls").isSuffixOf m)).map
      (fun m => replaceAll (lit ".cls") [] (replaceAll (lit ".sty") [] m))
  let m5 := if containsSub (lit "Emergency stop") log then scanAll emergencyMatcher log else []
  (m1 ++ m2 ++ m3 ++ m4 ++ m5).dedup

/-- The per-instance install cache (`installed_packages` / `failed_packages`
sets, modelled by membership in the lists). -/
structure InstallerSt where
  installed : List Buf
  failed : List Buf
  deriving DecidableEq, Repr

/-- Fresh `LaTeXPackageManager` state (both caches empty). -/
def instInit : InstallerSt := ⟨[], []⟩

/-- Outcome of one external `tlmgr install` subprocess call. -/
inductive ExternOutcome : Type
  | success : ExternOutcome
  | failed : ExternOutcome
  | timeout : ExternOutcome
  | exception : ExternOutcome
  deriving DecidableEq, Repr

/-- `PACKAGE_MAPPINGS` (LaTeX name → TinyTeX package name). -/
def PACKAGE_MAPPINGS : List (Buf × Buf) :=
  [(lit "algorithmic", lit "algorithms"), (lit "algorithm", lit "algorithms"),
   (lit "subcaption", lit "caption"), (lit "pdflscape", lit "pdflscape"),
   (lit "biblatex", lit "biblatex"), (lit "pgfplots", lit "pgf"), (lit "tikz", lit "pgf")]

/-- `PACKAGE_MAPPINGS.get(package_name, package_name)`. -/
def mapPackage (name : Buf) : Buf :=
  match PACKAGE_MAPPINGS.lookup name with
  | some t => t
  | none => name

/-- `LaTeXPackageManager.install_package` (lines 158–197).  `ext` is the
result of the external call that would be made for this package; the third
component records whether the external package manager was invoked.
A non-zero exit, a timeout, or an exception all add the package to the
failed cache. -/
def install_package (st : InstallerSt) (name : Buf) (ext : ExternOutcome) :
    Bool × InstallerSt × Bool :=
  if name ∈ st.installed then (true, st, false)
  else if name ∈ st.failed then (false, st, false)
  else
    match ext with
    | ExternOutcome.success => (true, { st with installed := name :: st.installed }, true)
    | _ => (false, { st with failed := name :: st.failed }, true)

/-- A sequence of `install_package` calls on one instance, from a fresh
state. -/
def runTrace (tr : List (Buf × ExternOutcome)) : InstallerSt :=
  tr.foldl (fun st p => (install_package st p.1 p.2).2.1) instInit

/-- One completed subprocess invocation: return code, stdout, stderr. -/
structure PdfRun where
  rc : Int
  out : Buf
  err : Buf

/-- `result.stdout + result.stderr`. -/
def runLog (r : PdfRun) : Buf := r.out ++ r.err

/-- The environment of one iteration of the retry loop of
`compile_latex_with_auto_install`: what the file system and the external
tools would answer during that attempt.  `bibtexException` covers an
exception escaping the inner BibTeX `try` block (e.g. a BibTeX timeout), in
which case the log is left unchanged; OS-level exceptions of the outer
block are outside the model. -/
structure AttemptEnv where
  timedOut : Bool
  run : PdfRun
  auxContent : Option Buf
  bibtexException : Bool
  bibtexRun : PdfRun
  pass1 : PdfRun
  pass2 : PdfRun
  pdfExists : Bool
  externFor : Buf → ExternOutcome
  iclrStyExists : Bool
  symlinkExists : Bool
  symlinkFails : Bool

/-- The `needs_bibtex` test (lines 270–277): aux file present and holding a
citation or bibdata marker, or the undefined-citations phrase in the log. -/
def needsBibtex (e : AttemptEnv) : Bool :=
  match e.auxContent with
  | none => false
  | some a =>
    containsSub (lit "\\citation\x7b") a || containsSub (lit "\\bibdata\x7b") a ||
      containsSub (lit "There were undefined citations") (runLog e.run)

/-- The BibTeX block of a zero-exit attempt (lines 279–316): on BibTeX
success, up to two further pdflatex passes run (stopping after a failing
one) and the log becomes the last pass output; on BibTeX failure or
exception the log is unchanged.  Returns (log, number of extra pdflatex
invocations). -/
def bibtexPhase (e : AttemptEnv) (log : Buf) : Buf × Nat :=
  if needsBibtex e then
    if e.bibtexException then (log, 0)
    else if e.bibtexRun.rc = 0 then
      if e.pass1.rc != 0 then (runLog e.pass1, 1)
      else (runLog e.pass2, 2)
    else (log, 0)
  else (log, 0)

/-- The install loop over extracted packages (lines 353–368), including the
`iclr2025_icbinb` symlink fallback; returns (`installed_any`, new cache). -/
def installAttempts (e : AttemptEnv) : InstallerSt → List Buf → Bool × InstallerSt
  | st, [] => (false, st)
  | st, p :: ps =>
    let r := install_package st p (e.externFor (mapPackage p))
    let ok :=
      if r.1 then true
      else if p == lit "iclr2025_icbinb" && e.iclrStyExists then
        !e.symlinkExists && !e.symlinkFails
      else false
    let rest := installAttempts e r.2.1 ps
    (ok || rest.1, rest.2)

/-- Log text returned when the attempt budget is exhausted. -/
def compileMaxMsg : Buf := lit "Max compilation attempts exceeded"

/-- Log text returned when the final attempt times out. -/
def compileTimeoutMsg : Buf := lit "Compilation timeout"

/-- `LaTeXPackageManager.compile_latex_with_auto_install` (lines 237–382).
The list supplies one `AttemptEnv` per loop iteration (its length is
`max_attempts`).  Result: (success, log text, number of pdflatex
invocations performed). -/
def compile_latex_with_auto_install : InstallerSt → List AttemptEnv → Bool × Buf × Nat
  | _, [] => (false, compileMaxMsg, 0)
  | st, e :: rest =>
    if e.timedOut then
      if rest.isEmpty then (false, compileTimeoutMsg, 1)
      else
        let r := compile_latex_with_auto_install st rest
        (r.1, r.2.1, r.2.2 + 1)
    else if e.run.rc = 0 then
      let lp := bibtexPhase e (runLog e.run)
      if e.pdfExists then (true, lp.1, 1 + lp.2)
      else
        let missing := extract_missing_packages_from_log lp.1
        if missing.isEmpty then (false, lp.1, 1 + lp.2)
        else
          let ia := installAttempts e st missing
          if ia.1 then
            let r := compile_latex_with_auto_install ia.2 rest
            (r.1, r.2.1, 1 + lp.2 + r.2.2)
          else (false, lp.1, 1 + lp.2)
    else
      let missing := extract_missing_packages_from_log (runLog e.run)
      if missing.isEmpty then (false, runLog e.run, 1)
      else
        let ia := installAttempts e st missing
        if ia.1 then
          let r := compile_latex_with_auto_install ia.2 rest
          (r.1, r.2.1, 1 + r.2.2)
        else (false, runLog e.run, 1)

/-! ### `validate_and_fix_bibtex_files` (lines 647–786), per-file content
transforms -/

/-- Issues found by the BibTeX syntax passes (tags of the strings the code
appends to `issues_found`; the file name the Python strings interpolate is
not part of the per-file content model). -/
inductive BibIssue : Type
  | unescapedAmp : BibIssue
  | unescapedUnderscore : BibIssue
  | unescapedHash : BibIssue
  | unescapedPercent : BibIssue
  | fieldAmp : BibIssue
  | htmlEntity (e : Buf) : BibIssue
  | generalAmp : BibIssue
  deriving DecidableEq, Repr

/-- `re.sub` for `([^\\])X([^Y])` → `\1\\X\2`: escape `X` when not preceded
by a backslash and not followed by `Y` (the `.bbl` patterns; the scan
resumes after each match, as `re.sub` does). -/
def subCharPair (x y : Char) : Buf → Buf
  | a :: b :: c :: rest =>
    if a != '\\' && b == x && c != y then
      a :: '\\' :: b :: c :: subCharPair x y rest
    else a :: subCharPair x y (b :: c :: rest)
  | l => l

/-- `re.search` for `([^\\])X([^Y])`. -/
def hasPairMatch (x y : Char) : Buf → Bool
  | a :: b :: c :: rest => (a != '\\' && b == x && c != y) || hasPairMatch x y (b :: c :: rest)
  | _ => false

/-- The `.bbl` branch of `validate_and_fix_bibtex_files` on one file
content: the four special-character fixes applied in source order, each
conditional on a search against the current content. -/
def fix_bbl_content (autoFix : Bool) (c : Buf) : List BibIssue × Buf :=
  let s1 := hasPairMatch '&' '&' c
  let c1 := if s1 && autoFix then subCharPair '&' '&' c else c
  let s2 := hasPairMatch '_' '\x7b' c1
  let c2 := if s2 && autoFix then subCharPair '_' '\x7b' c1 else c1
  let s3 := hasPairMatch '#' '\x7b' c2
  let c3 := if s3 && autoFix then subCharPair '#' '\x7b' c2 else c2
  let s4 := hasPairMatch '%' '\x7b' c3
  let c4 := if s4 && autoFix then subCharPair '%' '\x7b' c3 else c3
  ((if s1 then [BibIssue.unescapedAmp] else []) ++
   (if s2 then [BibIssue.unescapedUnderscore] else []) ++
   (if s3 then [BibIssue.unescapedHash] else []) ++
   (if s4 then [BibIssue.unescapedPercent] else []), c4)

/-- Is `k` a viable backtracking stop for the star of
`(\s*=\s*\{[^}]*[^\\])&([^}]*\})` inside the post-brace text `u`: the char
at `k` is not a backslash, a `&` follows it, and a closing brace exists
after the `&` for the second group. -/
def kOk (u : Buf) (k : Nat) : Bool :=
  match u.get? k, u.get? (k + 1) with
  | some c, some amp => c != '\\' && amp == '&' && (u.drop (k + 2)).contains '\x7d'
  | _, _ => none == some ()

/-- Greedy backtracking search: largest viable `k`, counting down. -/
def findK (u : Buf) : Nat → Option Nat
  | 0 => if kOk u 0 then some 0 else none
  | k + 1 => if kOk u (k + 1) then some (k + 1) else findK u k

/-- Anchored match of `(\s*=\s*\{[^}]*[^\\])&([^}]*\})` with replacement
`\1\\&\2`: returns (emitted replacement text, rest of the input after the
match). -/
def fieldMatchAt (l : Buf) : Option (Buf × Buf) :=
  let ws1 := l.takeWhile isPySpace
  match l.drop ws1.length with
  | '=' :: r1 =>
    let ws2 := r1.takeWhile isPySpace
    match r1.drop ws2.length with
    | '\x7b' :: u =>
      let kmax := (u.takeWhile (fun c => c != '\x7d')).length
      match findK u kmax with
      | none => none
      | some k =>
        let v := u.drop (k + 2)
        match v.findIdx? (fun c => c == '\x7d') with
        | none => none
        | some j =>
          some (ws1 ++ '=' :: ws2 ++ '\x7b' :: u.take (k + 1) ++ '\\' :: '&' :: v.take (j + 1),
                v.drop (j + 1))
    | _ => none
  | _ => none

/-- `re.sub` driver for the field-ampersand pattern. -/
def fieldAmpSubFuel : Nat → Buf → Buf
  | 0, l => l
  | _ + 1, [] => []
  | fuel + 1, c :: r =>
    match fieldMatchAt (c :: r) with
    | some (em, rest) => em ++ fieldAmpSubFuel fuel rest
    | none => c :: fieldAmpSubFuel fuel r

/-- `re.sub(field_ampersand_pattern, r'\1\\&\2', content)`. -/
def fieldAmpSub (l : Buf) : Buf := fieldAmpSubFuel l.length l

/-- `re.search(field_ampersand_pattern, content)`. -/
def hasFieldAmp (l : Buf) : Bool := (firstMatch fieldMatchAt l).isSome

/-- `re.sub` for `([^\\]&)([^&\s])` → `\1\\&\2` (note `\1` keeps the
original `&`, so the code inserts `\&` after it rather than escaping it). -/
def subGeneralAmp : Buf → Buf
  | a :: '&' :: b :: rest =>
    if a != '\\' && b != '&' && !isPySpace b then
      a :: '&' :: '\\' :: '&' :: b :: subGeneralAmp rest
    else a :: subGeneralAmp ('&' :: b :: rest)
  | a :: rest => a :: subGeneralAmp rest
  | [] => []

/-- `re.search` for `([^\\]&)([^&\s])`. -/
def hasGeneralAmp : Buf → Bool
  | a :: '&' :: b :: rest =>
    (a != '\\' && b != '&' && !isPySpace b) || hasGeneralAmp ('&' :: b :: rest)
  | _ :: rest => hasGeneralAmp rest
  | [] => false

/-- The HTML-entity table of the `.bib` branch, in source (dict) order. -/
def htmlEntities : List (Buf × Buf) :=
  [(lit "&amp;", lit "\\&"), (lit "&lt;", lit "<"), (lit "&gt;", lit ">"),
   (lit "&quot;", lit "\""), (lit "&#39;", lit "\x27")]

/-- The entity-replacement loop of the `.bib` branch. -/
def htmlFold (autoFix : Bool) : List (Buf × Buf) → Buf → List BibIssue × Buf
  | [], c => ([], c)
  | (e, rep) :: rest, c =>
    if containsSub e c then
      let c1 := if autoFix then replaceAll e rep c else c
      let r := htmlFold autoFix rest c1
      (BibIssue.htmlEntity e :: r.1, r.2)
    else htmlFold autoFix rest c

/-- The `.bib` branch of `validate_and_fix_bibtex_files` on one file
content: field-ampersand fix, HTML entity normalization, then the general
ampersand fix, each conditional on a search against the current content. -/
def fix_bib_content (autoFix : Bool) (c : Buf) : List BibIssue × Buf :=
  let s1 := hasFieldAmp c
  let c1 := if s1 && autoFix then fieldAmpSub c else c
  let rh := htmlFold autoFix htmlEntities c1
  let s3 := hasGeneralAmp rh.2
  let c3 := if s3 && autoFix then subGeneralAmp rh.2 else rh.2
  ((if s1 then [BibIssue.fieldAmp] else []) ++ rh.1 ++
   (if s3 then [BibIssue.generalAmp] else []), c3)

/-- Whether processing a `.bbl` file with this content (auto-fix on) writes
a `.syntax_backup` copy: exactly when the content changed. -/
def bblFileBackup (c : Buf) : Bool := (fix_bbl_content true c).2 != c

/-- Whether processing a `.bib` file with this content (auto-fix on) writes
a `.syntax_backup` copy: exactly when the content changed. -/
def bibFileBackup (c : Buf) : Bool := (fix_bib_content true c).2 != c

/-! ### The citation section of `validate_latex_file` (lines 462–533) -/

/-- The five citation command patterns. -/
def citePatterns : List Buf :=
  [lit "\\cite\x7b", lit "\\citep\x7b", lit "\\citet\x7b", lit "\\citealp\x7b",
   lit "\\citealt\x7b"]

/-- `cite_refs`: all comma-separated, stripped keys of all citation
commands.  Python collects them in a set; the embedding keeps first
occurrences. -/
def citeRefs (c : Buf) : List Buf :=
  (citePatterns.foldl
    (fun acc pre =>
      acc ++ ((scanAll (braceGroupMatcher pre) c).map
        (fun g => (splitOnComma g).map pyStrip)).flatten)
    []).dedup

/-- Matcher for one `@[^{]*\{([^,]+),` bibliography entry key. -/
def bibKeyMatcher : Buf → Option (Nat × Buf) := fun l =>
  match l with
  | '@' :: r =>
    let w := r.takeWhile (fun c => c != '\x7b')
    match r.drop w.length with
    | '\x7b' :: r2 =>
      let g := r2.takeWhile (fun c => c != ',')
      if !g.isEmpty && decide (g.length < r2.length) then
        some (1 + w.length + 1 + g.length + 1, g)
      else none
    | _ => none
  | _ => none

/-- `re.findall(r'@[^{]*\{([^,]+),', bib_content)`. -/
def bibKeys (c : Buf) : List Buf := scanAll bibKeyMatcher c

/-- First match of the inline `filecontents` bibliography pattern; returns
the captured body. -/
def filecontentsMatcher : Buf → Option Buf := fun l =>
  match dropLit (lit "\\begin\x7bfilecontents\x7d\x7b") l with
  | none => none
  | some r =>
    let w := takeUntilBrace r
    if (lit ".bib").isSuffixOf w && decide (w.length < r.length) then
      match findSub (lit "\\end\x7bfilecontents\x7d") (r.drop (w.length + 1)) with
      | some b => some ((r.drop (w.length + 1)).take b)
      | none => none
    else none

/-- `re.search` for the filecontents pattern over the whole buffer. -/
def filecontentsGroup (c : Buf) : Option Buf :=
  (firstMatch filecontentsMatcher c).map (fun p => p.2)

/-- The readable files of the working directory and its parent (name with
extension ↦ content); `parentExists` is `os.path.exists(parent_dir)`. -/
structure WorkEnv where
  workFiles : List (Buf × Buf)
  parentFiles : List (Buf × Buf)
  parentExists : Bool

/-- Keys of the `.bib` files explicitly named by `\bibliography{...}`
commands that exist in the working directory. -/
def declaredBibDefs (env : WorkEnv) (c : Buf) : List Buf :=
  ((scanAll (braceGroupMatcher (lit "\\bibliography\x7b")) c).map
    (fun f =>
      match env.workFiles.lookup (f ++ lit ".bib") with
      | some bc => bibKeys bc
      | none => [])).flatten

/-- Keys of every `.bib` file in a directory listing. -/
def dirBibDefs (fs : List (Buf × Buf)) : List Buf :=
  ((fs.filter (fun f => (lit ".bib").isSuffixOf f.1)).map (fun f => bibKeys f.2)).flatten

/-- `cite_defs` as staged by the source: declared files; if none found,
every `.bib` in the working directory; if still none, every `.bib` in the
existing parent directory; plus an inline filecontents bibliography
(collected unconditionally). -/
def citeDefs (env : WorkEnv) (c : Buf) : List Buf :=
  let d1 := declaredBibDefs env c
  let d2 := if d1.isEmpty then dirBibDefs env.workFiles else []
  let d3 := if (d1 ++ d2).isEmpty && env.parentExists then dirBibDefs env.parentFiles else []
  let d4 := match filecontentsGroup c with | some g => bibKeys g | none => []
  (d1 ++ d2 ++ d3 ++ d4).dedup

/-- The warning appended when citations exist but no bibliography was
found (its text interpolates the citation keys). -/
inductive CitWarning : Type
  | citationsWithoutBibliography (refs : List Buf) : CitWarning
  deriving DecidableEq, Repr

/-- The citation section of `LaTeXPackageManager.validate_latex_file`
(lines 462–533): (`undefined_citations`, citation-related `warnings`).
These two result keys are written nowhere else in the function. -/
def validate_latex_file_citations (env : WorkEnv) (c : Buf) : List Buf × List CitWarning :=
  let refs := citeRefs c
  let defs := citeDefs env c
  if !defs.isEmpty then (refs.filter (fun r => !defs.contains r), [])
  else if !refs.isEmpty then ([], [CitWarning.citationsWithoutBibliography refs])
  else ([], [])

/-! ## Substring-occurrence lemmas -/

lemma occursAtB_eq_true_iff (m l : Buf) (i : Nat) :
    occursAtB m l i = true ↔ (l.drop i).take m.length = m := by
  simp [occursAtB]

lemma occursAtB_length_le {m l : Buf} {i : Nat} (hm : 0 < m.length)
    (h : occursAtB m l i = true) : i + m.length ≤ l.length := by
  rw [occursAtB_eq_true_iff] at h
  have hlen := congrArg List.length h
  simp only [List.length_take, List.length_drop] at hlen
  omega

lemma occursAtB_append_left (m a b : Buf) (i : Nat) (hi : i + m.length ≤ a.length) :
    occursAtB m (a ++ b) i = occursAtB m a i := by
  unfold occursAtB
  rw [List.drop_append_of_le_length (by omega),
    List.take_append_of_le_length (by simp only [List.length_drop]; omega)]

lemma occursAtB_append_right (m a b : Buf) (j : Nat) :
    occursAtB m (a ++ b) (a.length + j) = occursAtB m b j := by
  unfold occursAtB
  rw [List.drop_append]

lemma occursAtB_span {m a b : Buf} {i : Nat} (h : occursAtB m (a ++ b) i = true)
    (h1 : i < a.length) (h2 : a.length < i + m.length) :
    m.drop (a.length - i) = b.take (i + m.length - a.length) := by
  rw [occursAtB_eq_true_iff] at h
  have e1 : m.drop (a.length - i) = (((a ++ b).drop i).take m.length).drop (a.length - i) := by
    rw [h]
  rw [List.drop_take, List.drop_drop] at e1
  have e2 : i + (a.length - i) = a.length := by omega
  rw [e2, List.drop_left] at e1
  have e3 : m.length - (a.length - i) = i + m.length - a.length := by omega
  rw [e3] at e1
  exact e1

lemma countOcc_eq_countP_range (m l : Buf) (hm : 0 < m.length) (N : Nat)
    (hN : l.length + 1 ≤ N) :
    (List.range N).countP (occursAtB m l) = countOcc m l := by
  obtain ⟨k, rfl⟩ : ∃ k, N = (l.length + 1) + k := ⟨N - (l.length + 1), by omega⟩
  rw [List.range_add, List.countP_append, countOcc]
  have hz : ((List.range k).map (l.length + 1 + ·)).countP (occursAtB m l) = 0 := by
    rw [List.countP_eq_zero]
    intro a ha hocc
    simp only [List.mem_map] at ha
    obtain ⟨j, _, rfl⟩ := ha
    have := occursAtB_length_le hm hocc
    omega
  omega

lemma countOcc_ne_zero_of_occursAtB {m l : Buf} {i : Nat} (hm : 0 < m.length)
    (h : occursAtB m l i = true) : countOcc m l ≠ 0 := by
  have hb := occursAtB_length_le hm h
  have : 0 < countOcc m l := by
    rw [countOcc, List.countP_pos_iff]
    exact ⟨i, List.mem_range.mpr (by omega), h⟩
  omega

lemma containsSub_eq_false_iff (m l : Buf) :
    containsSub m l = false ↔ countOcc m l = 0 := by
  simp [containsSub]

/-- `\begin{document}` spelled as marker ++ two newlines. -/
lemma beginDocIns_eq : beginDocIns = beginDocM ++ ['\n', '\n'] := by decide

lemma beginDocM_length : beginDocM.length = 16 := by decide

lemma newline_not_mem_beginDocM : ¬ '\n' ∈ beginDocM := by decide

/-- `\begin{document}` has no nontrivial self-overlap. -/
lemma beginDocM_border (j : Nat) (h1 : 0 < j) (h2 : j < 16) :
    beginDocM.drop j ≠ beginDocM.take (16 - j) := by
  interval_cases j <;> decide

/-- Inserting `\begin{document}\n\n` into a buffer with no occurrence of the
marker yields a buffer with exactly one occurrence. -/
lemma countOcc_beginDoc_insert (a b : Buf) (h : countOcc beginDocM (a ++ b) = 0) :
    countOcc beginDocM (a ++ beginDocIns ++ b) = 1 := by
  have hm : 0 < beginDocM.length := by decide
  have hnone : ∀ i, occursAtB beginDocM (a ++ b) i = false := by
    intro i
    cases hcc : occursAtB beginDocM (a ++ b) i with
    | false => rfl
    | true => exact absurd h (countOcc_ne_zero_of_occursAtB hm hcc)
  have hassoc : a ++ beginDocIns ++ b = a ++ (beginDocM ++ ('\n' :: '\n' :: b)) := by
    rw [beginDocIns_eq, List.append_assoc, List.append_assoc]
    rfl
  have key : ∀ i, occursAtB beginDocM (a ++ beginDocIns ++ b) i = true → i = a.length := by
    intro i hi
    rw [hassoc] at hi
    by_cases c1 : i + beginDocM.length ≤ a.length
    · rw [occursAtB_append_left _ _ _ _ c1] at hi
      have h2 : occursAtB beginDocM (a ++ b) i = true := by
        rw [occursAtB_append_left _ _ _ _ c1]
        exact hi
      rw [hnone i] at h2
      exact absurd h2 (by simp)
    · by_cases c2 : i < a.length
      · exfalso
        have hsp := occursAtB_span hi c2 (by omega)
        rw [beginDocM_length] at hsp
        have hj1 : 0 < a.length - i := by omega
        have hj2 : a.length - i < 16 := by rw [beginDocM_length] at c1; omega
        have htk : (beginDocM ++ ('\n' :: '\n' :: b)).take (i + 16 - a.length) =
            beginDocM.take (16 - (a.length - i)) := by
          rw [List.take_append_of_le_length (by rw [beginDocM_length]; omega)]
          congr 1
          omega
        rw [htk] at hsp
        exact beginDocM_border (a.length - i) hj1 hj2 hsp
      · obtain ⟨j, rfl⟩ : ∃ j, i = a.length + j := ⟨i - a.length, by omega⟩
        rw [occursAtB_append_right] at hi
        rcases Nat.eq_zero_or_pos j with hj0 | hjpos
        · omega
        · exfalso
          by_cases d1 : j < 16
          · have hsp := occursAtB_span (a := beginDocM) (b := '\n' :: '\n' :: b) hi
              (by rw [beginDocM_length]; omega) (by rw [beginDocM_length]; omega)
            rw [beginDocM_length] at hsp
            have hr : ('\n' :: '\n' :: b).take (j + 16 - 16) = '\n' ::
                ('\n' :: b).take (j - 1) := by
              obtain ⟨j', rfl⟩ : ∃ j', j = j' + 1 := ⟨j - 1, by omega⟩
              have : j' + 1 + 16 - 16 = j' + 1 := by omega
              rw [this, List.take_succ_cons]
              simp
            rw [hr] at hsp
            have : '\n' ∈ beginDocM.drop (16 - j) := by rw [hsp]; exact List.mem_cons_self _ _
            exact newline_not_mem_beginDocM (List.drop_subset _ _ this)
          · obtain ⟨j₂, rfl⟩ : ∃ j₂, j = beginDocM.length + j₂ :=
              ⟨j - 16, by rw [beginDocM_length]; omega⟩
            rw [occursAtB_append_right] at hi
            match j₂, hi with
            | 0, hi =>
              rw [occursAtB_eq_true_iff] at hi
              rw [List.drop_zero, beginDocM_length, List.take_succ_cons] at hi
              exact newline_not_mem_beginDocM (by rw [← hi]; exact List.mem_cons_self _ _)
            | 1, hi =>
              rw [occursAtB_eq_true_iff] at hi
              have : (('\n' :: '\n' :: b).drop 1) = '\n' :: b := rfl
              rw [this, beginDocM_length, List.take_succ_cons] at hi
              exact newline_not_mem_beginDocM (by rw [← hi]; exact List.mem_cons_self _ _)
            | (j₃ + 2), hi =>
              have hi' : occursAtB beginDocM (['\n', '\n'] ++ b)
                  ((['\n', '\n'] : Buf).length + j₃) = true := by
                have hc : (['\n', '\n'] : Buf).length + j₃ = j₃ + 2 := by simp; omega
                rw [hc]
                exact hi
              have h2 := hi'
              rw [occursAtB_append_right] at h2
              have h3 : occursAtB beginDocM (a ++ b) (a.length + j₃) = true := by
                rw [occursAtB_append_right]
                exact h2
              rw [hnone _] at h3
              exact absurd h3 (by simp)
  have at_pos : occursAtB beginDocM (a ++ beginDocIns ++ b) a.length = true := by
    rw [hassoc]
    have h0 : occursAtB beginDocM (a ++ (beginDocM ++ ('\n' :: '\n' :: b))) (a.length + 0)
        = occursAtB beginDocM (beginDocM ++ ('\n' :: '\n' :: b)) 0 :=
      occursAtB_append_right _ _ _ 0
    rw [Nat.add_zero] at h0
    rw [h0, occursAtB_eq_true_iff, List.drop_zero,
      List.take_append_of_le_length (le_refl _), List.take_length]
  rw [countOcc]
  have hcg : ∀ x ∈ List.range ((a ++ beginDocIns ++ b).length + 1),
      occursAtB beginDocM (a ++ beginDocIns ++ b) x = true ↔ (x == a.length) = true := by
    intro x _
    constructor
    · intro hx
      simp [key x hx]
    · intro hx
      have : x = a.length := by simpa using hx
      rw [this]
      exact at_pos
  rw [List.countP_congr hcg]
  have hmem : a.length ∈ List.range ((a ++ beginDocIns ++ b).length + 1) := by
    rw [List.mem_range]
    simp [List.length_append]
    omega
  exact List.count_eq_one_of_mem (List.nodup_range _) hmem

lemma endDocApp_length : endDocApp.length = 16 := by decide

/-- Appending `\n\end{document}\n` creates no new occurrence of
`\begin{document}`. -/
lemma countOcc_beginDoc_append_endDoc (x : Buf) :
    countOcc beginDocM (x ++ endDocApp) = countOcc beginDocM x := by
  have hm : 0 < beginDocM.length := by decide
  rw [countOcc]
  have hcg : ∀ i ∈ List.range ((x ++ endDocApp).length + 1),
      occursAtB beginDocM (x ++ endDocApp) i = true ↔ occursAtB beginDocM x i = true := by
    intro i _
    by_cases c1 : i + beginDocM.length ≤ x.length
    · rw [occursAtB_append_left _ _ _ _ c1]
    · constructor
      · intro hi
        exfalso
        by_cases c2 : i < x.length
        · have hsp := occursAtB_span hi c2 (by omega)
          rw [beginDocM_length] at hsp
          have hk : 0 < i + 16 - x.length := by rw [beginDocM_length] at c1; omega
          have hr : endDocApp.take (i + 16 - x.length) =
              '\n' :: (lit "\\end\x7bdocument\x7d\n").take (i + 16 - x.length - 1) := by
            obtain ⟨k', hk'⟩ : ∃ k', i + 16 - x.length = k' + 1 :=
              ⟨i + 16 - x.length - 1, by omega⟩
            rw [hk']
            have : endDocApp = '\n' :: lit "\\end\x7bdocument\x7d\n" := by decide
            rw [this, List.take_succ_cons]
            simp
          rw [hr] at hsp
          have : '\n' ∈ beginDocM.drop (x.length - i) := by
            rw [hsp]; exact List.mem_cons_self _ _
          exact newline_not_mem_beginDocM (List.drop_subset _ _ this)
        · obtain ⟨j, rfl⟩ : ∃ j, i = x.length + j := ⟨i - x.length, by omega⟩
          rw [occursAtB_append_right] at hi
          have hb := occursAtB_length_le hm hi
          rw [beginDocM_length, endDocApp_length] at hb
          have hj0 : j = 0 := by omega
          rw [hj0, occursAtB_eq_true_iff, List.drop_zero, beginDocM_length] at hi
          have : endDocApp.take 16 = endDocApp := by decide
          rw [this] at hi
          exact absurd hi (by decide)
      · intro hi
        have hb := occursAtB_length_le hm hi
        omega
  rw [List.countP_congr hcg]
  exact countOcc_eq_countP_range _ _ hm _ (by simp [List.length_append])

/-! ## Claims C3 and C10 — the document-envelope check -/

lemma check_document_structure_reduce_none (c : Buf) (hb : containsSub beginDocM c = false)
    (ha : findInsertPos c = none) :
    check_document_structure c true =
      (if containsSub endDocM c then ([VIssue.missingBeginDocument], c)
       else ([VIssue.missingBeginDocument, VIssue.missingEndDocument], c ++ endDocApp)) := by
  unfold check_document_structure
  rw [hb, ha]
  by_cases hend : containsSub endDocM c
  · simp [hend]
  · simp [hend]

lemma check_document_structure_reduce_some (c : Buf) (p : Nat)
    (hb : containsSub beginDocM c = false) (ha : findInsertPos c = some p) :
    check_document_structure c true =
      (if containsSub endDocM (c.take p ++ beginDocIns ++ c.drop p)
       then ([VIssue.missingBeginDocument], c.take p ++ beginDocIns ++ c.drop p)
       else ([VIssue.missingBeginDocument, VIssue.missingEndDocument],
         (c.take p ++ beginDocIns ++ c.drop p) ++ endDocApp)) := by
  unfold check_document_structure
  rw [hb, ha]
  by_cases hend : containsSub endDocM (c.take p ++ beginDocIns ++ c.drop p)
  · simp [hend]
  · simp [hend]

/-- C10: on a buffer with no body-begin marker and no matching anchor
pattern, the envelope check records the missing-begin issue, performs no
insertion (appending at most a body-end marker), and the returned buffer
still contains no body-begin marker. -/
theorem C10_theorem (c : Buf) (hb : containsSub beginDocM c = false)
    (ha : findInsertPos c = none) :
    (check_document_structure c true).1 =
      VIssue.missingBeginDocument ::
        (if containsSub endDocM c then [] else [VIssue.missingEndDocument]) ∧
    (check_document_structure c true).2 =
      (if containsSub endDocM c then c else c ++ endDocApp) ∧
    containsSub beginDocM ((check_document_structure c true).2) = false := by
  rw [check_document_structure_reduce_none c hb ha]
  by_cases hend : containsSub endDocM c = true
  · rw [if_pos hend, if_pos hend, if_pos hend]
    exact ⟨rfl, rfl, hb⟩
  · rw [if_neg hend, if_neg hend, if_neg hend]
    refine ⟨rfl, rfl, ?_⟩
    rw [containsSub_eq_false_iff, countOcc_beginDoc_append_endDoc]
    exact (containsSub_eq_false_iff _ _).mp hb

/-- C10 witness: a concrete anchor-free buffer. -/
theorem C10_witness :
    containsSub beginDocM ((check_document_structure (lit "plain prose") true).2) = false :=
  (C10_theorem (lit "plain prose") (by decide) (by decide)).2.2

/-- C3 counterexample: a buffer with no body-begin marker and no anchor
pattern; after the envelope check the buffer still contains zero body-begin
markers, not exactly one. -/
theorem C3_counterexample :
    containsSub beginDocM (lit "just words") = false ∧
    countOcc beginDocM ((check_document_structure (lit "just words") true).2) ≠ 1 := by
  exact ⟨by decide, by decide⟩

/-- C3 (amended): when at least one anchor pattern matches, the envelope
check inserts the marker at the leftmost match of the highest-priority
matching anchor, and the resulting buffer contains exactly one body-begin
marker. -/
theorem C3_theorem (c : Buf) (p : Nat) (hb : containsSub beginDocM c = false)
    (ha : findInsertPos c = some p) :
    (check_document_structure c true).2 =
      (if containsSub endDocM (c.take p ++ beginDocIns ++ c.drop p)
       then c.take p ++ beginDocIns ++ c.drop p
       else (c.take p ++ beginDocIns ++ c.drop p) ++ endDocApp) ∧
    countOcc beginDocM ((check_document_structure c true).2) = 1 := by
  have hcnt : countOcc beginDocM (c.take p ++ beginDocIns ++ c.drop p) = 1 := by
    apply countOcc_beginDoc_insert
    rw [List.take_append_drop]
    exact (containsSub_eq_false_iff _ _).mp hb
  rw [check_document_structure_reduce_some c p hb ha]
  by_cases hend : containsSub endDocM (c.take p ++ beginDocIns ++ c.drop p) = true
  · rw [if_pos hend, if_pos hend]
    exact ⟨rfl, hcnt⟩
  · rw [if_neg hend, if_neg hend]
    refine ⟨rfl, ?_⟩
    rw [countOcc_beginDoc_append_endDoc]
    exact hcnt

/-- C3 witness: a buffer whose only anchor is the first section command. -/
theorem C3_witness :
    countOcc beginDocM
      ((check_document_structure (lit "\\section\x7bIntro\x7d text") true).2) = 1 :=
  (C3_theorem (lit "\\section\x7bIntro\x7d text") 0 (by decide) (by decide)).2

/-! ## Claim C5 — idempotence of the template validator on issue-free
buffers.  Every fix branch of every check is guarded by an issue append, so
an empty issue list forces every check to return its input unchanged. -/

lemma ite_pair_fst_ne_nil {P : Prop} [Decidable P] {a b : List VIssue} {x y : Buf}
    (ha : a ≠ []) (hb : b ≠ []) : (if P then (a, x) else (b, y)).1 ≠ [] := by
  by_cases h : P <;> simp [h, ha, hb]

lemma check_document_structure_nil (c : Buf) (af : Bool)
    (h : (check_document_structure c af).1 = []) :
    (check_document_structure c af).2 = c := by
  by_cases hb : containsSub beginDocM c = true
  · by_cases he : containsSub endDocM c = true
    · simp [check_document_structure, hb, he]
    · exfalso
      simp [check_document_structure, hb, he] at h
  · exfalso
    cases hfi : findInsertPos c with
    | none =>
      by_cases haf : af = true <;>
        simp only [check_document_structure, hb, hfi, haf] at h <;>
        exact absurd h (ite_pair_fst_ne_nil (by simp) (by simp))
    | some p =>
      by_cases haf : af = true <;>
        simp only [check_document_structure, hb, hfi, haf] at h <;>
        exact absurd h (ite_pair_fst_ne_nil (by simp) (by simp))

lemma check_preamble_content_nil (c : Buf) (af : Bool)
    (h : (check_preamble_content c af).1 = []) :
    (check_preamble_content c af).2 = c := by
  cases hf : findSub beginDocM c with
  | none => simp [check_preamble_content, hf]
  | some p =>
    have hfix : collectPreambleFixes (c.drop p) = [] := by
      simp only [check_preamble_content, hf] at h
      split at h <;> simpa using h
    simp [check_preamble_content, hf, hfix]

lemma check_title_author_placement_nil (c : Buf) (af : Bool)
    (h : (check_title_author_placement c af).1 = []) :
    (check_title_author_placement c af).2 = c := by
  cases hf : findSub beginDocM c with
  | none => simp [check_title_author_placement, hf]
  | some p =>
    by_cases hta : (containsSub (lit "\\title\x7b") (c.drop p) ||
        containsSub (lit "\\author\x7b") (c.drop p)) = true
    · exfalso
      simp only [check_title_author_placement, hf, hta] at h
      by_cases haf : af = true <;> simp only [haf] at h <;>
        exact absurd h (ite_pair_fst_ne_nil (by simp) (by simp))
    · by_cases hmt : containsSub (lit "\\maketitle") (c.take p) = true
      · exfalso
        simp only [check_title_author_placement, hf] at h
        rw [if_neg hta] at h
        simp only [hmt] at h
        by_cases haf : af = true <;> simp [haf] at h
      · simp only [check_title_author_placement, hf]
        rw [if_neg hta]
        simp only [hmt, Bool.false_eq_true, if_false, List.take_append_drop]

lemma check_abstract_placement_nil (c : Buf) (af : Bool)
    (h : (check_abstract_placement c af).1 = []) :
    (check_abstract_placement c af).2 = c := by
  cases hf : findSub beginDocM c with
  | none => simp [check_abstract_placement, hf]
  | some p =>
    by_cases ha : containsSub (lit "\\begin\x7babstract\x7d") (c.take p) = true
    · exfalso
      simp only [check_abstract_placement, hf, ha] at h
      by_cases haf : af = true
      · simp only [haf] at h
        cases hab : abstractBlock (c.take p) <;> simp [hab] at h
      · simp [haf] at h
    · simp [check_abstract_placement, hf, ha]

lemma check_bibliography_setup_nil (c : Buf) (af : Bool)
    (h : (check_bibliography_setup c af).1 = []) :
    (check_bibliography_setup c af).2 = c := by
  cases hb : bibCmdMatch c with
  | none =>
    by_cases hs : containsSub (lit "\\bibliographystyle\x7b") c = true
    · simp [check_bibliography_setup, hb, hs]
    · exfalso
      simp only [check_bibliography_setup, hb, hs] at h
      by_cases haf : af = true <;> simp [haf] at h
  | some pg =>
    obtain ⟨s, g⟩ := pg
    by_cases hsuf : (lit ".bib").isSuffixOf g = true
    · exfalso
      simp only [check_bibliography_setup, hb, hsuf] at h
      by_cases haf : af = true <;> simp only [haf] at h <;>
        exact absurd h (ite_pair_fst_ne_nil (by simp) (by simp))
    · by_cases hs : containsSub (lit "\\bibliographystyle\x7b") c = true
      · simp [check_bibliography_setup, hb, hsuf, hs]
      · exfalso
        by_cases haf : af = true <;>
          simp [check_bibliography_setup, hb, hsuf, haf, hs] at h

lemma figLoop_nil (af : Bool) (blocks : List Buf) (i : Nat) (c : Buf)
    (h : (figLoop af blocks i c).1 = []) : (figLoop af blocks i c).2 = c := by
  induction blocks generalizing i c with
  | nil => rfl
  | cons blk rest ih =>
    by_cases hl : containsSub (lit "\\label\x7b") blk = true
    · simp only [figLoop, hl, if_true] at h ⊢
      exact ih _ _ h
    · exfalso
      simp only [figLoop, hl] at h
      by_cases haf : af = true <;> simp [haf] at h

lemma check_figure_references_nil (c : Buf) (af : Bool)
    (h : (check_figure_references c af).1 = []) :
    (check_figure_references c af).2 = c := by
  simp only [check_figure_references] at h ⊢
  rw [List.append_eq_nil] at h
  exact figLoop_nil _ _ _ _ h.2

lemma secLoop_nil (af : Bool) (secs : List (Buf × Buf)) (c : Buf)
    (h : (secLoop af secs c).1 = []) : (secLoop af secs c).2 = c := by
  induction secs generalizing c with
  | nil => rfl
  | cons s rest ih =>
    obtain ⟨ty, title⟩ := s
    cases hm : findSub ('\\' :: ty ++ '\x7b' :: title ++ ['\x7d']) c with
    | none =>
      simp only [secLoop, hm] at h ⊢
      exact ih _ h
    | some m =>
      by_cases hlab : containsSub (lit "\\label\x7b")
          ((c.drop (m + ('\\' :: ty ++ '\x7b' :: title ++ ['\x7d']).length)).take 200) = true
      · simp only [secLoop, hm, hlab, if_true] at h ⊢
        exact ih _ h
      · exfalso
        simp only [secLoop, hm, hlab] at h
        by_cases haf : af = true <;> simp [haf] at h

lemma check_section_structure_nil (c : Buf) (af : Bool)
    (h : (check_section_structure c af).1 = []) :
    (check_section_structure c af).2 = c := by
  by_cases hs : (scanAll sectionMatcher c).isEmpty = true
  · exfalso
    simp [check_section_structure, hs] at h
  · simp only [check_section_structure, hs, Bool.false_eq_true, if_false] at h ⊢
    rw [List.append_eq_nil] at h
    exact secLoop_nil _ _ _ h.2

/-- C5: a structure-validation pass that reports zero issues returns the
buffer unchanged, and a second pass on its output again reports zero issues
and changes nothing (idempotence on already-valid buffers). -/
theorem C5_theorem (c : Buf) (af : Bool)
    (h : (validate_and_fix_template c af).issues = []) :
    (validate_and_fix_template c af).content = c ∧
    (validate_and_fix_template ((validate_and_fix_template c af).content) af).issues = [] ∧
    (validate_and_fix_template ((validate_and_fix_template c af).content) af).content =
      (validate_and_fix_template c af).content := by
  have hiss : (validate_and_fix_template c af).issues =
      (check_document_structure c af).1 ++
      (check_preamble_content (check_document_structure c af).2 af).1 ++
      (check_title_author_placement
        (check_preamble_content (check_document_structure c af).2 af).2 af).1 ++
      (check_abstract_placement (check_title_author_placement
        (check_preamble_content (check_document_structure c af).2 af).2 af).2 af).1 ++
      (check_bibliography_setup (check_abstract_placement (check_title_author_placement
        (check_preamble_content (check_document_structure c af).2 af).2 af).2 af).2 af).1 ++
      (check_figure_references (check_bibliography_setup (check_abstract_placement
        (check_title_author_placement (check_preamble_content
          (check_document_structure c af).2 af).2 af).2 af).2 af).2 af).1 ++
      (check_section_structure (check_figure_references (check_bibliography_setup
        (check_abstract_placement (check_title_author_placement (check_preamble_content
          (check_document_structure c af).2 af).2 af).2 af).2 af).2 af).2 af).1 := rfl
  have h0 := h
  rw [hiss] at h
  repeat rw [List.append_eq_nil] at h
  obtain ⟨⟨⟨⟨⟨⟨h1, h2⟩, h3⟩, h4⟩, h5⟩, h6⟩, h7⟩ := h
  have e1 := check_document_structure_nil _ _ h1
  rw [e1] at h2 h3 h4 h5 h6 h7
  have e2 := check_preamble_content_nil _ _ h2
  rw [e2] at h3 h4 h5 h6 h7
  have e3 := check_title_author_placement_nil _ _ h3
  rw [e3] at h4 h5 h6 h7
  have e4 := check_abstract_placement_nil _ _ h4
  rw [e4] at h5 h6 h7
  have e5 := check_bibliography_setup_nil _ _ h5
  rw [e5] at h6 h7
  have e6 := check_figure_references_nil _ _ h6
  rw [e6] at h7
  have e7 := check_section_structure_nil _ _ h7
  have hout : (validate_and_fix_template c af).content = c := by
    simp only [validate_and_fix_template]
    rw [e1, e2, e3, e4, e5, e6, e7]
  refine ⟨hout, ?_, ?_⟩
  · rw [hout]
    exact h0
  · rw [hout]
    exact hout

set_option maxRecDepth 40000 in
/-- C5 witness: a concrete buffer on which the validator reports zero
issues. -/
theorem C5_witness :
    (validate_and_fix_template (lit "\\documentclass\x7barticle\x7d\n\\begin\x7bdocument\x7d\n\\section\x7bA\x7d\n\\label\x7bsec:a\x7d\nx\n\\bibliographystyle\x7biclr2025\x7d\n\\end\x7bdocument\x7d\n") true).issues = [] ∧
    (validate_and_fix_template (lit "\\documentclass\x7barticle\x7d\n\\begin\x7bdocument\x7d\n\\section\x7bA\x7d\n\\label\x7bsec:a\x7d\nx\n\\bibliographystyle\x7biclr2025\x7d\n\\end\x7bdocument\x7d\n") true).content =
      lit "\\documentclass\x7barticle\x7d\n\\begin\x7bdocument\x7d\n\\section\x7bA\x7d\n\\label\x7bsec:a\x7d\nx\n\\bibliographystyle\x7biclr2025\x7d\n\\end\x7bdocument\x7d\n" :=
  ⟨by decide, (C5_theorem _ true (by decide)).1⟩

/-! ## Claim C2 — order of the moved preamble lines -/

/-- Descending order on the `line_start` keys of preamble fixes. -/
def fixGE (a b : Nat × Nat × Buf) : Prop := b.1 ≤ a.1

lemma insFixDesc_mem (z x : Nat × Nat × Buf) (l : List (Nat × Nat × Buf)) :
    z ∈ insFixDesc x l ↔ z = x ∨ z ∈ l := by
  induction l with
  | nil => simp [insFixDesc]
  | cons y ys ih =>
    unfold insFixDesc
    by_cases hc : x.1 ≤ y.1
    · rw [if_pos hc]
      simp only [List.mem_cons, ih]
      try tauto
    · rw [if_neg hc]
      simp only [List.mem_cons]
      try tauto

lemma insFixDesc_perm (x : Nat × Nat × Buf) (l : List (Nat × Nat × Buf)) :
    (insFixDesc x l).Perm (x :: l) := by
  induction l with
  | nil => exact List.Perm.refl _
  | cons y ys ih =>
    unfold insFixDesc
    by_cases hc : x.1 ≤ y.1
    · rw [if_pos hc]
      exact (ih.cons y).trans (List.Perm.swap x y ys)
    · rw [if_neg hc]

lemma insFixDesc_sorted (x : Nat × Nat × Buf) (l : List (Nat × Nat × Buf))
    (h : l.Pairwise fixGE) : (insFixDesc x l).Pairwise fixGE := by
  induction l with
  | nil => simp [insFixDesc, List.pairwise_singleton]
  | cons y ys ih =>
    rw [List.pairwise_cons] at h
    unfold insFixDesc
    by_cases hc : x.1 ≤ y.1
    · rw [if_pos hc]
      rw [List.pairwise_cons]
      refine ⟨?_, ih h.2⟩
      intro z hz
      rcases (insFixDesc_mem z x ys).mp hz with hz | hz
      · rw [hz]
        exact hc
      · exact h.1 z hz
    · rw [if_neg hc]
      rw [List.pairwise_cons]
      refine ⟨?_, List.pairwise_cons.mpr h⟩
      intro z hz
      rcases List.mem_cons.mp hz with hz | hz
      · rw [hz]
        exact le_of_lt (lt_of_not_le hc)
      · exact le_trans (h.1 z hz) (le_of_lt (lt_of_not_le hc))

lemma foldl_insFixDesc_perm (l acc : List (Nat × Nat × Buf)) :
    (l.foldl (fun a x => insFixDesc x a) acc).Perm (acc ++ l) := by
  induction l generalizing acc with
  | nil => simp
  | cons x xs ih =>
    have h1 : (xs.foldl (fun a x => insFixDesc x a) (insFixDesc x acc)).Perm
        (insFixDesc x acc ++ xs) := ih _
    have h2 : (insFixDesc x acc ++ xs).Perm ((x :: acc) ++ xs) :=
      (insFixDesc_perm x acc).append_right xs
    have h3 : ((x :: acc) ++ xs).Perm (acc ++ x :: xs) := by
      simp only [List.cons_append]
      exact List.perm_middle.symm
    exact (h1.trans h2).trans h3

lemma sortFixesDesc_perm (l : List (Nat × Nat × Buf)) : (sortFixesDesc l).Perm l :=
  foldl_insFixDesc_perm l []

lemma foldl_insFixDesc_sorted (l acc : List (Nat × Nat × Buf)) (h : acc.Pairwise fixGE) :
    (l.foldl (fun a x => insFixDesc x a) acc).Pairwise fixGE := by
  induction l generalizing acc with
  | nil => exact h
  | cons x xs ih => exact ih _ (insFixDesc_sorted x acc h)

lemma sortFixesDesc_sorted (l : List (Nat × Nat × Buf)) :
    (sortFixesDesc l).Pairwise fixGE :=
  foldl_insFixDesc_sorted l [] List.Pairwise.nil

lemma check_preamble_content_fix (c : Buf) (p : Nat) (hb : findSub beginDocM c = some p)
    (hne : (collectPreambleFixes (c.drop p)).isEmpty = false) :
    check_preamble_content c true =
      ((collectPreambleFixes (c.drop p)).map
        (fun f => VIssue.preambleCommandInBody (pyStrip f.2.2)),
       (c.take p ++ '\n' :: joinNl ((sortFixesDesc (collectPreambleFixes (c.drop p))).map
         (fun f => f.2.2)) ++ ['\n'])
         ++ removeFixes (c.drop p) (sortFixesDesc (collectPreambleFixes (c.drop p)))) := by
  simp [check_preamble_content, hb, hne]

/-- C2 counterexample: a body holding `\usepackage{a}` before
`\usepackage{b}`; after the check the moved lines sit in the preamble with
`b` (position 1) before `a` (position 16) — reverse of their body order. -/
theorem C2_counterexample :
    (check_preamble_content
      (lit "\\begin\x7bdocument\x7d\n\\usepackage\x7ba\x7d\n\\usepackage\x7bb\x7d\n\\end\x7bdocument\x7d") true).2 =
      lit "\n\\usepackage\x7bb\x7d\n\\usepackage\x7ba\x7d\n\\begin\x7bdocument\x7d\n\n\n\\end\x7bdocument\x7d" ∧
    findSub (lit "\\usepackage\x7bb\x7d")
      ((check_preamble_content
        (lit "\\begin\x7bdocument\x7d\n\\usepackage\x7ba\x7d\n\\usepackage\x7bb\x7d\n\\end\x7bdocument\x7d") true).2) =
      some 1 ∧
    findSub (lit "\\usepackage\x7ba\x7d")
      ((check_preamble_content
        (lit "\\begin\x7bdocument\x7d\n\\usepackage\x7ba\x7d\n\\usepackage\x7bb\x7d\n\\end\x7bdocument\x7d") true).2) =
      some 16 :=
  ⟨by decide, by decide, by decide⟩

/-- C2 (amended): the moved lines are appended to the preamble in reverse
source order — the appended list is a permutation of the collected lines
sorted by descending line-start position (stable for equal keys). -/
theorem C2_theorem (c : Buf) (p : Nat) (hb : findSub beginDocM c = some p)
    (hf : 2 ≤ (collectPreambleFixes (c.drop p)).length) :
    (check_preamble_content c true).2 =
      (c.take p ++ '\n' :: joinNl ((sortFixesDesc (collectPreambleFixes (c.drop p))).map
        (fun f => f.2.2)) ++ ['\n'])
        ++ removeFixes (c.drop p) (sortFixesDesc (collectPreambleFixes (c.drop p))) ∧
    (sortFixesDesc (collectPreambleFixes (c.drop p))).Pairwise fixGE ∧
    (sortFixesDesc (collectPreambleFixes (c.drop p))).Perm
      (collectPreambleFixes (c.drop p)) := by
  have hne : (collectPreambleFixes (c.drop p)).isEmpty = false := by
    cases hcc : collectPreambleFixes (c.drop p) with
    | nil => rw [hcc] at hf; simp at hf
    | cons x xs => rfl
  rw [check_preamble_content_fix c p hb hne]
  exact ⟨rfl, sortFixesDesc_sorted _, sortFixesDesc_perm _⟩

/-- C2 witness: a buffer with two `\usepackage` lines in the body. -/
theorem C2_witness :
    (sortFixesDesc (collectPreambleFixes
      ((lit "p\n\\begin\x7bdocument\x7d\n\\usepackage\x7bu\x7d\n\\usepackage\x7bv\x7d\n").drop 2))).Pairwise
      fixGE :=
  (C2_theorem (lit "p\n\\begin\x7bdocument\x7d\n\\usepackage\x7bu\x7d\n\\usepackage\x7bv\x7d\n") 2
    (by decide) (by decide)).2.1

/-! ## Claim C8 — the per-session install cache -/

/-- The two cache sets are disjoint. -/
def cacheDisjoint (st : InstallerSt) : Prop :=
  ∀ x ∈ st.installed, x ∉ st.failed

lemma install_package_disjoint (st : InstallerSt) (n : Buf) (o : ExternOutcome)
    (h : cacheDisjoint st) : cacheDisjoint (install_package st n o).2.1 := by
  unfold install_package
  by_cases h1 : n ∈ st.installed
  · rw [if_pos h1]
    exact h
  · rw [if_neg h1]
    by_cases h2 : n ∈ st.failed
    · rw [if_pos h2]
      exact h
    · rw [if_neg h2]
      cases o with
      | success =>
        intro x hx
        rcases List.mem_cons.mp hx with hx | hx
        · rw [hx]; exact h2
        · exact h x hx
      | failed =>
        intro x hx hxf
        rcases List.mem_cons.mp hxf with hxf | hxf
        · rw [hxf] at hx; exact h1 hx
        · exact h x hx hxf
      | timeout =>
        intro x hx hxf
        rcases List.mem_cons.mp hxf with hxf | hxf
        · rw [hxf] at hx; exact h1 hx
        · exact h x hx hxf
      | exception =>
        intro x hx hxf
        rcases List.mem_cons.mp hxf with hxf | hxf
        · rw [hxf] at hx; exact h1 hx
        · exact h x hx hxf

lemma install_package_failed_mono (st : InstallerSt) (n : Buf) (o : ExternOutcome)
    (x : Buf) (h : x ∈ st.failed) : x ∈ (install_package st n o).2.1.failed := by
  unfold install_package
  by_cases h1 : n ∈ st.installed
  · rw [if_pos h1]; exact h
  · rw [if_neg h1]
    by_cases h2 : n ∈ st.failed
    · rw [if_pos h2]; exact h
    · rw [if_neg h2]
      cases o <;> first | exact h | exact List.mem_cons_of_mem _ h

lemma install_package_installed_mono (st : InstallerSt) (n : Buf) (o : ExternOutcome)
    (x : Buf) (h : x ∈ st.installed) : x ∈ (install_package st n o).2.1.installed := by
  unfold install_package
  by_cases h1 : n ∈ st.installed
  · rw [if_pos h1]; exact h
  · rw [if_neg h1]
    by_cases h2 : n ∈ st.failed
    · rw [if_pos h2]; exact h
    · rw [if_neg h2]
      cases o <;> first | exact h | exact List.mem_cons_of_mem _ h

lemma foldl_install_disjoint (tr : List (Buf × ExternOutcome)) (st : InstallerSt)
    (h : cacheDisjoint st) :
    cacheDisjoint (tr.foldl (fun s p => (install_package s p.1 p.2).2.1) st) := by
  induction tr generalizing st with
  | nil => exact h
  | cons p ps ih => exact ih _ (install_package_disjoint _ _ _ h)

lemma foldl_install_failed_mono (tr : List (Buf × ExternOutcome)) (st : InstallerSt)
    (x : Buf) (h : x ∈ st.failed) :
    x ∈ (tr.foldl (fun s p => (install_package s p.1 p.2).2.1) st).failed := by
  induction tr generalizing st with
  | nil => exact h
  | cons p ps ih => exact ih _ (install_package_failed_mono _ _ _ _ h)

lemma foldl_install_installed_mono (tr : List (Buf × ExternOutcome)) (st : InstallerSt)
    (x : Buf) (h : x ∈ st.installed) :
    x ∈ (tr.foldl (fun s p => (install_package s p.1 p.2).2.1) st).installed := by
  induction tr generalizing st with
  | nil => exact h
  | cons p ps ih => exact ih _ (install_package_installed_mono _ _ _ _ h)

lemma runTrace_disjoint (tr : List (Buf × ExternOutcome)) : cacheDisjoint (runTrace tr) :=
  foldl_install_disjoint tr instInit (by intro x hx; cases hx)

/-- C8: after any call sequence the confirmed-installed and
confirmed-failed sets are disjoint; a cached failed package returns `false`
and a cached installed package returns `true`, in both cases without
invoking the external package manager and without changing the cache; and
both cache memberships persist across any further calls. -/
theorem C8_theorem (tr tr2 : List (Buf × ExternOutcome)) (n m : Buf)
    (o o2 : ExternOutcome) (hf : n ∈ (runTrace tr).failed)
    (hm : m ∈ (runTrace tr).installed) :
    cacheDisjoint (runTrace tr) ∧
    install_package (runTrace tr) n o = (false, runTrace tr, false) ∧
    install_package (runTrace tr) m o2 = (true, runTrace tr, false) ∧
    n ∈ (runTrace (tr ++ tr2)).failed ∧
    m ∈ (runTrace (tr ++ tr2)).installed := by
  have hd := runTrace_disjoint tr
  have hni : n ∉ (runTrace tr).installed := fun hni => hd n hni hf
  refine ⟨hd, ?_, ?_, ?_, ?_⟩
  · unfold install_package
    rw [if_neg hni, if_pos hf]
  · unfold install_package
    rw [if_pos hm]
  · rw [runTrace, List.foldl_append]
    exact foldl_install_failed_mono tr2 _ n hf
  · rw [runTrace, List.foldl_append]
    exact foldl_install_installed_mono tr2 _ m hm

/-- C8 witness: a trace with one successful and one failed install. -/
theorem C8_witness :
    cacheDisjoint (runTrace [(lit "good", ExternOutcome.success),
      (lit "bad", ExternOutcome.failed)]) ∧
    install_package (runTrace [(lit "good", ExternOutcome.success),
      (lit "bad", ExternOutcome.failed)]) (lit "bad") ExternOutcome.success =
      (false, runTrace [(lit "good", ExternOutcome.success),
        (lit "bad", ExternOutcome.failed)], false) ∧
    install_package (runTrace [(lit "good", ExternOutcome.success),
      (lit "bad", ExternOutcome.failed)]) (lit "good") ExternOutcome.failed =
      (true, runTrace [(lit "good", ExternOutcome.success),
        (lit "bad", ExternOutcome.failed)], false) ∧
    lit "bad" ∈ (runTrace ([(lit "good", ExternOutcome.success),
      (lit "bad", ExternOutcome.failed)] ++ [(lit "more", ExternOutcome.success)])).failed ∧
    lit "good" ∈ (runTrace ([(lit "good", ExternOutcome.success),
      (lit "bad", ExternOutcome.failed)] ++ [(lit "more", ExternOutcome.success)])).installed :=
  C8_theorem [(lit "good", ExternOutcome.success), (lit "bad", ExternOutcome.failed)]
    [(lit "more", ExternOutcome.success)] (lit "bad") (lit "good")
    ExternOutcome.success ExternOutcome.failed (by decide) (by decide)

/-! ## Claim C6 — citations with no discoverable bibliography -/

/-- C6: when the document has citation commands but the staged bibliography
discovery finds zero definitions, nothing is reported under
`undefined_citations` and a citations-without-bibliography warning is
emitted instead. -/
theorem C6_theorem (env : WorkEnv) (c : Buf) (h1 : citeRefs c ≠ [])
    (h2 : citeDefs env c = []) :
    (validate_latex_file_citations env c).1 = [] ∧
    (validate_latex_file_citations env c).2 =
      [CitWarning.citationsWithoutBibliography (citeRefs c)] := by
  unfold validate_latex_file_citations
  rw [h2]
  simp [h1, List.isEmpty_iff]

/-- C6 witness: one citation command and an empty file system. -/
theorem C6_witness :
    (validate_latex_file_citations ⟨[], [], false⟩ (lit "\\cite\x7bfoo\x7d")).1 = [] ∧
    (validate_latex_file_citations ⟨[], [], false⟩ (lit "\\cite\x7bfoo\x7d")).2 =
      [CitWarning.citationsWithoutBibliography (citeRefs (lit "\\cite\x7bfoo\x7d"))] :=
  C6_theorem ⟨[], [], false⟩ (lit "\\cite\x7bfoo\x7d") (by decide) (by decide)

/-! ## Claim C9 — the missing-package log extractor -/

/-- C9 counterexample: a doubled extension in the log leaves a returned
name that still ends in `.sty` (pattern 1 strips only the suffix it
matched). -/
theorem C9_counterexample :
    lit "a.sty" ∈ extract_missing_packages_from_log
      (lit "! LaTeX Error: File \x60a.sty.sty\x27 not found") ∧
    (lit ".sty").isSuffixOf (lit "a.sty") = true :=
  ⟨by decide, by decide⟩

/-- C9 (amended): the extractor output is duplicate-free; each pattern
strips the extension suffix it matched, so the `siunitx.sty` log yields the
bare name `siunitx` (and not `siunitx.sty`). -/
theorem C9_theorem (log : Buf) :
    (extract_missing_packages_from_log log).Nodup ∧
    lit "siunitx" ∈ extract_missing_packages_from_log
      (lit "! LaTeX Error: File \x60siunitx.sty\x27 not found") ∧
    ¬ lit "siunitx.sty" ∈ extract_missing_packages_from_log
      (lit "! LaTeX Error: File \x60siunitx.sty\x27 not found") :=
  ⟨List.nodup_dedup _, by decide, by decide⟩

/-! ## Claim C4 — the bibliography-syntax pass -/

/-- C4 counterexample: a `.bib` file whose only special character is an
unescaped underscore outside any brace group is left unchanged (no escape
inserted, no backup): the `.bib` branch only fixes ampersands and HTML
entities. -/
theorem C4_counterexample :
    (fix_bib_content true (lit "x_y")).2 = lit "x_y" ∧
    bibFileBackup (lit "x_y") = false :=
  ⟨by decide, by decide⟩

/-- C4 (amended): escaping is decided by local character context, not brace
nesting — the `.bib` field pass escapes the ampersand of
`title = {Fish & Chips}` even though it sits inside a brace group, and the
`.bbl` pass escapes `&` inside braces too; any changed file gets a backup. -/
theorem C4_theorem (c : Buf) (h : (fix_bib_content true c).2 ≠ c) :
    bibFileBackup c = true ∧
    (fix_bib_content true (lit "title = \x7bFish & Chips\x7d")).2 =
      lit "title = \x7bFish \\& Chips\x7d" ∧
    bibFileBackup (lit "title = \x7bFish & Chips\x7d") = true ∧
    (fix_bbl_content true (lit "\x7ba & b\x7d")).2 = lit "\x7ba \\& b\x7d" ∧
    bblFileBackup (lit "\x7ba & b\x7d") = true := by
  refine ⟨?_, by decide, by decide, by decide, by decide⟩
  unfold bibFileBackup
  exact bne_iff_ne.mpr h

/-- C4 witness. -/
theorem C4_witness :
    bibFileBackup (lit "title = \x7bFish & Chips\x7d") = true :=
  (C4_theorem (lit "title = \x7bFish & Chips\x7d") (by decide)).1

/-! ## Claims C1 and C7 — the compile-retry loop -/

/-- A failing attempt: non-zero exit, log `boom` with nothing extractable. -/
def cexAttempt : AttemptEnv where
  timedOut := false
  run := ⟨1, lit "boom", []⟩
  auxContent := none
  bibtexException := false
  bibtexRun := ⟨1, [], []⟩
  pass1 := ⟨0, [], []⟩
  pass2 := ⟨0, [], []⟩
  pdfExists := false
  externFor := fun _ => ExternOutcome.failed
  iclrStyExists := false
  symlinkExists := false
  symlinkFails := false

/-- A zero-exit attempt whose output artifact is missing. -/
def cexAttemptZero : AttemptEnv := { cexAttempt with run := ⟨0, lit "boom", []⟩ }

/-- C1 counterexample: three consecutive failing attempts with
unextractable logs under `max_attempts = 3` return failure after ONE
compiler invocation, not three — the loop exits early when nothing can be
extracted. -/
theorem C1_counterexample :
    compile_latex_with_auto_install instInit [cexAttempt, cexAttempt, cexAttempt] =
      (false, lit "boom", 1) ∧
    (compile_latex_with_auto_install instInit [cexAttempt, cexAttempt, cexAttempt]).2.2 ≠ 3 :=
  ⟨by decide, by decide⟩

/-- C1 (amended): with `max_attempts = 3`, if every attempt would fail with
a log from which no package can be extracted, the call returns failure with
the FIRST attempt log after exactly one compiler invocation. -/
theorem C1_theorem (st : InstallerSt) (e0 e1 e2 : AttemptEnv)
    (h : ∀ e ∈ [e0, e1, e2], e.timedOut = false ∧ e.run.rc ≠ 0 ∧
      extract_missing_packages_from_log (runLog e.run) = []) :
    compile_latex_with_auto_install st [e0, e1, e2] = (false, runLog e0.run, 1) := by
  obtain ⟨ht, hrc, hex⟩ := h e0 (by simp)
  simp [compile_latex_with_auto_install, ht, hrc, hex]

/-- C1 witness. -/
theorem C1_witness :
    compile_latex_with_auto_install instInit [cexAttempt, cexAttempt, cexAttempt] =
      (false, runLog cexAttempt.run, 1) :=
  C1_theorem instInit cexAttempt cexAttempt cexAttempt (by
    intro e he
    have heq : e = cexAttempt := by
      rcases List.mem_cons.mp he with h | h
      · exact h
      · rcases List.mem_cons.mp h with h | h
        · exact h
        · rcases List.mem_cons.mp h with h | h
          · exact h
          · exact absurd h (List.not_mem_nil e)
    rw [heq]
    exact ⟨rfl, by decide, by decide⟩)

/-- Success of the retry loop requires some attempt with no timeout, a zero
exit code, and the output artifact present on disk. -/
lemma compile_success_pdf (st : InstallerSt) (envs : List AttemptEnv)
    (h : (compile_latex_with_auto_install st envs).1 = true) :
    ∃ e ∈ envs, e.timedOut = false ∧ e.run.rc = 0 ∧ e.pdfExists = true := by
  induction envs generalizing st with
  | nil => simp [compile_latex_with_auto_install] at h
  | cons e rest ih =>
    by_cases ht : e.timedOut = true
    · by_cases hr : rest.isEmpty = true
      · exfalso
        simp [compile_latex_with_auto_install, ht, hr] at h
      · simp only [compile_latex_with_auto_install, ht, if_true, hr, Bool.false_eq_true,
          if_false] at h
        obtain ⟨e2, he2, hp⟩ := ih _ h
        exact ⟨e2, List.mem_cons_of_mem _ he2, hp⟩
    · have ht' : e.timedOut = false := by revert ht; cases e.timedOut <;> simp
      by_cases hrc : e.run.rc = 0
      · by_cases hp : e.pdfExists = true
        · exact ⟨e, List.mem_cons_self _ _, ht', hrc, hp⟩
        · by_cases hmiss : (extract_missing_packages_from_log
              (bibtexPhase e (runLog e.run)).1).isEmpty = true
          · exfalso
            simp [compile_latex_with_auto_install, ht', hrc, hp, hmiss] at h
          · by_cases hia : (installAttempts e st (extract_missing_packages_from_log
                (bibtexPhase e (runLog e.run)).1)).1 = true
            · simp only [compile_latex_with_auto_install, ht', hrc, hp, hmiss, hia,
                Bool.false_eq_true, if_false, if_true] at h
              obtain ⟨e2, he2, hpp⟩ := ih _ h
              exact ⟨e2, List.mem_cons_of_mem _ he2, hpp⟩
            · exfalso
              simp [compile_latex_with_auto_install, ht', hrc, hp, hmiss, hia] at h
      · by_cases hmiss : (extract_missing_packages_from_log (runLog e.run)).isEmpty = true
        · exfalso
          simp [compile_latex_with_auto_install, ht', hrc, hmiss] at h
        · by_cases hia : (installAttempts e st
              (extract_missing_packages_from_log (runLog e.run))).1 = true
          · simp only [compile_latex_with_auto_install, ht', hrc, hmiss, hia,
              Bool.false_eq_true, if_false, if_true] at h
            obtain ⟨e2, he2, hpp⟩ := ih _ h
            exact ⟨e2, List.mem_cons_of_mem _ he2, hpp⟩
          · exfalso
            simp [compile_latex_with_auto_install, ht', hrc, hmiss, hia] at h

/-- C7: a zero-exit attempt counts as a success only when the output
artifact exists; with the artifact absent the attempt cannot be the source
of success, and control falls through to missing-package extraction
(returning the failed-attempt result when nothing is extractable). -/
theorem C7_theorem (st : InstallerSt) (e : AttemptEnv) (rest : List AttemptEnv)
    (h1 : e.timedOut = false) (h2 : e.run.rc = 0) (h3 : e.pdfExists = false) :
    (∀ st2 envs, (compile_latex_with_auto_install st2 envs).1 = true →
      ∃ e2 ∈ envs, e2.timedOut = false ∧ e2.run.rc = 0 ∧ e2.pdfExists = true) ∧
    ((compile_latex_with_auto_install st (e :: rest)).1 = true →
      ∃ e2 ∈ rest, e2.pdfExists = true) ∧
    (extract_missing_packages_from_log (bibtexPhase e (runLog e.run)).1 = [] →
      compile_latex_with_auto_install st (e :: rest) =
        (false, (bibtexPhase e (runLog e.run)).1, 1 + (bibtexPhase e (runLog e.run)).2)) := by
  refine ⟨fun st2 envs h => compile_success_pdf st2 envs h, ?_, ?_⟩
  · intro hsucc
    obtain ⟨e2, he2, _, _, hp⟩ := compile_success_pdf st _ hsucc
    rcases List.mem_cons.mp he2 with heq | hmem
    · rw [heq, h3] at hp
      exact absurd hp (by simp)
    · exact ⟨e2, hmem, hp⟩
  · intro hex
    simp [compile_latex_with_auto_install, h1, h2, h3, hex]

/-- C7 witness. -/
theorem C7_witness :
    compile_latex_with_auto_install instInit [cexAttemptZero] =
      (false, (bibtexPhase cexAttemptZero (runLog cexAttemptZero.run)).1,
        1 + (bibtexPhase cexAttemptZero (runLog cexAttemptZero.run)).2) :=
  (C7_theorem instInit cexAttemptZero [] rfl rfl rfl).2.2 (by decide)

end AISci
